import Mathlib

set_option maxRecDepth 4000

/-!
Shallow embedding of the CHIP-8 / SUPER-CHIP core interpreter
(`src/core/src/lib.rs`) and proofs about it.

Modelling conventions:
* Machine integers are `Nat` with explicit truncation (`% 256` / `% 65536`)
  exactly where the Rust `u8`/`u16` arithmetic can wrap
  (`wrapping_add`, `wrapping_sub`, `+=` in release mode); where the source
  arithmetic is structurally bounded (cannot overflow) we keep plain `+`.
* `ram` / `var_registers` / `display_buffer` are total functions; the Rust
  arrays' bounds (`ram` has 4096 cells) are enforced by explicit range
  checks at every indexing site that can actually go out of bounds.
  A Rust panic (out-of-bounds index, or the `todo!()` arms) yields no
  resulting machine state; the whole step is modelled as `none`.
  Since a panic aborts the step, the checks are hoisted before the arm's
  writes; the observable outcome (`none`) is the same.
* The fallible `tick` returns `Option (MachineState × Except Error Bool)`:
  `none` = panic, `some (s, .error e)` = `Err(e)` leaving state `s`,
  `some (s, .ok b)` = `Ok(b)`.
* The two `FnMut` callbacks are modelled as sequences `Nat → Nat`;
  each is invoked at most once per tick in the source, so only index 0
  is ever read.
-/

/-- The error type of the core (src/core/src/lib.rs lines 10-20). -/
inductive Error where
  | StackOverflow
  | IllegalInstruction (code : Nat)
  | ProgramExited
  deriving DecidableEq

/-- `EmulationSystem` (lines 22-27): `Chip8` is the Classic variant,
`SuperChip` the Extended variant. -/
inductive EmulationSystem where
  | Chip8
  | SuperChip
  deriving DecidableEq

/-- `MachineState` (lines 29-49).  `display_buffer` is indexed
`[x][y]` with `x < 128 = DISPLAY_WIDTH`, `y < 64 = DISPLAY_HEIGHT`,
like the Rust `[[bool; DISPLAY_HEIGHT]; DISPLAY_WIDTH]`.
The `heapless::Vec<u16, 16>` stack is a `List Nat` whose *end* is the
top of the stack (push appends, pop removes the last element). -/
structure MachineState where
  system : EmulationSystem
  display_buffer : Nat → Nat → Bool
  ram : Nat → Nat
  program_counter : Nat
  index_register : Nat
  var_registers : Nat → Nat
  stack : List Nat
  delay_timer : Nat
  sound_timer : Nat
  previous_keystate : Nat
  high_res : Bool

/-- `Default for MachineState` (lines 51-74). -/
def MachineState.empty : MachineState where
  system := .Chip8
  display_buffer := fun _ _ => false
  ram := fun _ => 0
  program_counter := 0x200
  index_register := 0
  var_registers := fun _ => 0
  stack := []
  delay_timer := 0
  sound_timer := 0
  previous_keystate := 0
  high_res := false

/-- `MachineState::new` (lines 77-82). -/
def MachineState.new (system : EmulationSystem) : MachineState :=
  { MachineState.empty with system := system }

/-- `MachineState::load_program` (lines 99-101): copy the program bytes
into `ram` starting at 0x200.  (The source's slice copy panics if the
program overruns the address space; per spec section 4.1 staying in range
is the caller's precondition, and every use below is in range.) -/
def MachineState.load_program (s : MachineState) (program : List Nat) : MachineState :=
  { s with ram := fun a =>
      if 0x200 ≤ a ∧ a < 0x200 + program.length then program.getD (a - 0x200) 0 else s.ram a }

/-- Pointwise update of a register file / any `Nat`-indexed function. -/
def setReg (v : Nat → Nat) (i val : Nat) : Nat → Nat :=
  fun j => if j = i then val else v j

/-- Pointwise update of one ram cell. -/
def setMem (m : Nat → Nat) (a val : Nat) : Nat → Nat :=
  fun b => if b = a then val else m b

/-- `buf[a][b] = !buf[a][b]` on the display buffer. -/
def flipPx (d : Nat → Nat → Bool) (a b : Nat) : Nat → Nat → Bool :=
  fun p q => if p = a ∧ q = b then !(d a b) else d p q

/-- `u8::wrapping_sub a b`, faithful for `a b < 256`. -/
def wsub8 (a b : Nat) : Nat := (256 + a - b) % 256

/-- Instruction decode (lines 125-129): `op` = high nibble. -/
def nib3 (i : Nat) : Nat := (i &&& 0xF000) >>> 12

/-- `x = (instruction & 0x0F00) >> 8` (line 125). -/
def decX (i : Nat) : Nat := (i &&& 0x0F00) >>> 8

/-- `y = (instruction & 0x00F0) >> 4` (line 126). -/
def decY (i : Nat) : Nat := (i &&& 0x00F0) >>> 4

/-- `n = instruction & 0x000F` (line 127). -/
def decN (i : Nat) : Nat := i &&& 0x000F

/-- `nn = instruction & 0x00FF` (line 128). -/
def decNN (i : Nat) : Nat := i &&& 0x00FF

/-- `nnn = instruction & 0x0FFF` (line 129). -/
def decNNN (i : Nat) : Nat := i &&& 0x0FFF

/-- The `for i in 0..16` scan of `Fx0A` (lines 455-460): first bit index
`i` (starting from the given one, for `fuel` steps) with
`(key_diff >> i) & 1 == 1`. -/
def keyScan (key_diff : Nat) : Nat → Nat → Option Nat
  | _, 0 => none
  | i, fuel + 1 =>
    if (key_diff >>> i) &&& 0x1 = 1 then some i else keyScan key_diff (i + 1) fuel

/-- The whole 16-iteration scan of `Fx0A`. -/
def firstKeyBit (key_diff : Nat) : Option Nat := keyScan key_diff 0 16

/-- `00FB` (lines 516-524): scroll the display right by `k` columns
(`copy_within(0..WIDTH-k, k)` then clear columns `0..k`). -/
def scrollRight (k : Nat) (d : Nat → Nat → Bool) : Nat → Nat → Bool :=
  fun xp yp => if xp < k then false else d (xp - k) yp

/-- `00FC` (lines 526-536): scroll the display left by `k` columns
(`copy_within(k..WIDTH, 0)` then clear columns `WIDTH-k..WIDTH`). -/
def scrollLeft (k : Nat) (d : Nat → Nat → Bool) : Nat → Nat → Bool :=
  fun xp yp => if 128 - k ≤ xp then false else d (xp + k) yp

/-- `00CN` (lines 538-548): scroll every column down by `k` rows
(per-column `copy_within(0..HEIGHT-k, k)` then clear rows `0..k`). -/
def scrollDown (k : Nat) (d : Nat → Nat → Bool) : Nat → Nat → Bool :=
  fun xp yp => if yp < k then false else d xp (yp - k)

/-- Inner `for j in 0..(if sprite16 {16} else {8})` column loop of the
high-resolution `Dxyn` path (lines 353-372), recursion on the remaining
fuel.  `yr = y + i` is the target row; the loop `break`s as soon as
`x + j >= DISPLAY_WIDTH`.  Returns the display and the row's collision
flag. -/
def colsHigh (sprite16 : Bool) (sprite_row xp yr : Nat) :
    Nat → Nat → (Nat → Nat → Bool) → Bool → ((Nat → Nat → Bool) × Bool)
  | 0, _, d, collision => (d, collision)
  | fuel + 1, j, d, collision =>
    if 128 ≤ xp + j then (d, collision)
    else
      let pixel := if sprite16 then (sprite_row >>> (15 - j)) &&& 0x1 = 1
                   else (sprite_row >>> (7 - j)) &&& 0x1 = 1
      if pixel then
        colsHigh sprite16 sprite_row xp yr fuel (j + 1)
          (flipPx d (xp + j) yr) (collision || d (xp + j) yr)
      else
        colsHigh sprite16 sprite_row xp yr fuel (j + 1) d collision

/-- Outer `for i in 0..n` row loop of the high-resolution `Dxyn` path
(lines 336-377).  `vf` threads `var_registers[0xF]`; a row that falls
off the bottom adds `n - i` to it and `break`s; an in-range sprite-row
read outside `ram` is a Rust panic (`none`). -/
def rowsHigh (ram : Nat → Nat) (ir : Nat) (sprite16 : Bool) (n xp yp : Nat) :
    Nat → Nat → (Nat → Nat → Bool) → Nat → Option ((Nat → Nat → Bool) × Nat)
  | 0, _, d, vf => some (d, vf)
  | fuel + 1, i, d, vf =>
    if 64 ≤ yp + i then some (d, vf + (n - i))
    else if 4096 ≤ ir + (if sprite16 then i * 2 + 1 else i) then none
    else
      let address_offset := ir + (if sprite16 then i * 2 else i)
      let sprite_row := if sprite16 then (ram address_offset) <<< 8 + ram (address_offset + 1)
                        else ram (ir + i)
      let p := colsHigh sprite16 sprite_row xp (yp + i) (if sprite16 then 16 else 8) 0 d false
      rowsHigh ram ir sprite16 n xp yp fuel (i + 1) p.1 (if p.2 then vf + 1 else vf)

/-- Inner `for j in 0..8` column loop of the low-resolution `Dxyn` path
(lines 393-415): each logical pixel is a 2x2 block of the 128x64 buffer;
collision is tested on the block's top-left cell before the four flips;
`vf` is set to 1 (never accumulated) on collision. -/
def colsLow (sprite_row xp yi : Nat) :
    Nat → Nat → (Nat → Nat → Bool) → Nat → ((Nat → Nat → Bool) × Nat)
  | 0, _, d, vf => (d, vf)
  | fuel + 1, j, d, vf =>
    if 128 ≤ 2 * (xp + j) then (d, vf)
    else if (sprite_row >>> (7 - j)) &&& 0x1 = 1 then
      let vf' := if d (2 * (xp + j)) (2 * yi) then 1 else vf
      let d' := flipPx (flipPx (flipPx (flipPx d
            (2 * (xp + j))     (2 * yi))
            (2 * (xp + j))     (2 * yi + 1))
            (2 * (xp + j) + 1) (2 * yi))
            (2 * (xp + j) + 1) (2 * yi + 1)
      colsLow sprite_row xp yi fuel (j + 1) d' vf'
    else
      colsLow sprite_row xp yi fuel (j + 1) d vf

/-- Outer `for i in 0..n` row loop of the low-resolution `Dxyn` path
(lines 386-416); `break`s when the doubled row falls off the bottom,
with no addition to VF. -/
def rowsLow (ram : Nat → Nat) (ir xp yp : Nat) :
    Nat → Nat → (Nat → Nat → Bool) → Nat → Option ((Nat → Nat → Bool) × Nat)
  | 0, _, d, vf => some (d, vf)
  | fuel + 1, i, d, vf =>
    if 64 ≤ 2 * (yp + i) then some (d, vf)
    else if 4096 ≤ ir + i then none
    else
      let sprite_row := ram (ir + i)
      let p := colsLow sprite_row xp (yp + i) 8 0 d vf
      rowsLow ram ir xp yp fuel (i + 1) p.1 p.2

/-- The whole `Dxyn` arm (lines 322-420).  The wrapped starting
coordinates are read from `Vx`/`Vy` before `VF` is zeroed, exactly as in
the source (which indexes `var_registers[x]` unmasked on the high-res
path and `var_registers[x & 0xF]` on the low-res path). -/
def execDxyn (s : MachineState) (x y n : Nat) : Option MachineState :=
  if s.high_res then
    let xp := s.var_registers x % 128
    let yp := s.var_registers y % 64
    let n' := if n = 0 then 16 else n
    let sprite16 := n = 0
    (rowsHigh s.ram s.index_register sprite16 n' xp yp n' 0 s.display_buffer 0).map
      (fun p => { s with display_buffer := p.1, var_registers := setReg s.var_registers 0xF p.2 })
  else
    let xp := s.var_registers (x &&& 0xF) % 64
    let yp := s.var_registers (y &&& 0xF) % 32
    (rowsLow s.ram s.index_register xp yp n 0 s.display_buffer 0).map
      (fun p => { s with display_buffer := p.1, var_registers := setReg s.var_registers 0xF p.2 })

/-- `8xy6` (lines 270-281): the register file after the arm.
`shifted_out` is taken from `Vy` unconditionally; only the *shifted
value*'s source register depends on the variant. -/
def exec8xy6 (system : EmulationSystem) (v : Nat → Nat) (x y : Nat) : Nat → Nat :=
  let shifted_out := v (y &&& 0xF) &&& 0x1
  let v1 := setReg v (x &&& 0xF)
    (v ((if system = .SuperChip then x else y) &&& 0xF) >>> 1)
  setReg v1 0xF shifted_out

/-- `8xyE` (lines 283-294): as `exec8xy6` but shifting left; the `u8`
left shift truncates to 8 bits. -/
def exec8xyE (system : EmulationSystem) (v : Nat → Nat) (x y : Nat) : Nat → Nat :=
  let shifted_out := (v (y &&& 0xF) &&& 0x80) >>> 7
  let v1 := setReg v (x &&& 0xF)
    ((v ((if system = .SuperChip then x else y) &&& 0xF) <<< 1) % 256)
  setReg v1 0xF shifted_out

/-- The `for (i, var) in ...enumerate()` write loop of `Fx55`
(lines 485-487), `k` cells written in ascending order. -/
def dumpRegs (v ram : Nat → Nat) (ir : Nat) : Nat → (Nat → Nat)
  | 0 => ram
  | k + 1 => setMem (dumpRegs v ram ir k) (ir + k) (v k)

/-- The `for (i, var) in ...enumerate()` read loop of `Fx65`
(lines 495-497), `k` registers read in ascending order. -/
def loadRegs (ram v : Nat → Nat) (ir : Nat) : Nat → (Nat → Nat)
  | 0 => v
  | k + 1 => setReg (loadRegs ram v ir k) k (ram (ir + k))

/-- `Fx55` (lines 483-491): store `V0..=Vx` to `ram[I..]`; the Classic
variant then post-increments `I` by `x+1` (`u16` add, wrapping).  Any
out-of-range store is a panic (`none`). -/
def execFx55 (s : MachineState) (x : Nat) : Option MachineState :=
  if s.index_register + (x &&& 0xF) < 4096 then
    some { s with
      ram := dumpRegs s.var_registers s.ram s.index_register ((x &&& 0xF) + 1),
      index_register :=
        if s.system = .Chip8 then (s.index_register + (x &&& 0xF) + 1) % 65536
        else s.index_register }
  else none

/-- `Fx65` (lines 493-501): load `V0..=Vx` from `ram[I..]`; same
post-increment quirk and panic modelling as `execFx55`. -/
def execFx65 (s : MachineState) (x : Nat) : Option MachineState :=
  if s.index_register + (x &&& 0xF) < 4096 then
    some { s with
      var_registers := loadRegs s.ram s.var_registers s.index_register ((x &&& 0xF) + 1),
      index_register :=
        if s.system = .Chip8 then (s.index_register + (x &&& 0xF) + 1) % 65536
        else s.index_register }
  else none

/-- The instruction word fetched at the current program counter
(lines 120-121): two consecutive bytes, big-endian. -/
def MachineState.instrAt (s : MachineState) : Nat :=
  (s.ram s.program_counter) <<< 8 + s.ram (s.program_counter + 1)

/-- `Fx0A` (lines 448-466): blocking key wait.  Compares the previously
latched key mask with the current one; on a strict numeric decrease the
lowest-numbered bit of the difference is stored in `Vx` and the latch is
cleared; otherwise the current mask is latched and the (already
advanced) program counter is rolled back by 2 (`u16` wrapping sub). -/
def execFx0A (s : MachineState) (x current_keystate : Nat) : MachineState :=
  if current_keystate < s.previous_keystate then
    let key_diff := s.previous_keystate - current_keystate
    let v1 := match firstKeyBit key_diff with
      | some i => setReg s.var_registers (x &&& 0xF) i
      | none => s.var_registers
    { s with var_registers := v1, previous_keystate := 0 }
  else
    { s with previous_keystate := current_keystate,
             program_counter := (s.program_counter + 65534) % 65536 }

/-- The `match ((instruction & 0xF000) >> 12, nn, n)` dispatch of `tick`
(lines 151-561), translated as an if-chain in source arm order (the Rust
arms are tried top to bottom; the two `0x0` arms carry `if y == 0xE`
guards).  `s` is the post-fetch state: the program counter has already
been advanced by 2. -/
def execInstr (s : MachineState) (instruction : Nat) (held_keys random : Nat → Nat) :
    Option (MachineState × Except Error Bool) :=
  let x := decX instruction
  let y := decY instruction
  let n := decN instruction
  let nn := decNN instruction
  let nnn := decNNN instruction
  -- 00E0 (lines 152-156)
  if nib3 instruction = 0x0 ∧ n = 0x0 ∧ y = 0xE then
    some ({ s with display_buffer := fun _ _ => false }, .ok true)
  -- 00EE (lines 158-159): pop, empty stack falls back to 0x200
  else if nib3 instruction = 0x0 ∧ n = 0xE ∧ y = 0xE then
    let pc1 := (s.stack.getLast?).getD 0x200
    some ({ s with program_counter := pc1, stack := s.stack.dropLast }, .ok false)
  -- 1nnn (lines 161-162)
  else if nib3 instruction = 0x1 then
    some ({ s with program_counter := nnn }, .ok false)
  -- 2nnn (lines 164-170): heapless push fails when the 16-slot Vec is full
  else if nib3 instruction = 0x2 then
    if s.stack.length < 16 then
      let st1 := s.stack ++ [s.program_counter]
      some ({ s with stack := st1, program_counter := nnn }, .ok false)
    else
      some (s, .error .StackOverflow)
  -- 3xnn (lines 172-177)
  else if nib3 instruction = 0x3 then
    let pc1 := if s.var_registers (x &&& 0xF) = nn then s.program_counter + 2
               else s.program_counter
    some ({ s with program_counter := pc1 }, .ok false)
  -- 4xnn (lines 179-184)
  else if nib3 instruction = 0x4 then
    let pc1 := if s.var_registers (x &&& 0xF) ≠ nn then s.program_counter + 2
               else s.program_counter
    some ({ s with program_counter := pc1 }, .ok false)
  -- 5xy (lines 186-191)
  else if nib3 instruction = 0x5 then
    let pc1 := if s.var_registers (x &&& 0xF) = s.var_registers (y &&& 0xF)
               then s.program_counter + 2 else s.program_counter
    some ({ s with program_counter := pc1 }, .ok false)
  -- 9xy (lines 193-198)
  else if nib3 instruction = 0x9 then
    let pc1 := if s.var_registers (x &&& 0xF) ≠ s.var_registers (y &&& 0xF)
               then s.program_counter + 2 else s.program_counter
    some ({ s with program_counter := pc1 }, .ok false)
  -- 8xy0 (line 201)
  else if nib3 instruction = 0x8 ∧ n = 0x0 then
    let v1 := setReg s.var_registers (x &&& 0xF) (s.var_registers (y &&& 0xF))
    some ({ s with var_registers := v1 }, .ok false)
  -- 8xy1 (lines 203-209): Classic zeroes VF afterwards
  else if nib3 instruction = 0x8 ∧ n = 0x1 then
    let v1 := setReg s.var_registers (x &&& 0xF)
      (s.var_registers (x &&& 0xF) ||| s.var_registers (y &&& 0xF))
    let v2 := if s.system = .Chip8 then setReg v1 0xF 0 else v1
    some ({ s with var_registers := v2 }, .ok false)
  -- 8xy2 (lines 211-217)
  else if nib3 instruction = 0x8 ∧ n = 0x2 then
    let v1 := setReg s.var_registers (x &&& 0xF)
      (s.var_registers (x &&& 0xF) &&& s.var_registers (y &&& 0xF))
    let v2 := if s.system = .Chip8 then setReg v1 0xF 0 else v1
    some ({ s with var_registers := v2 }, .ok false)
  -- 8xy3 (lines 219-225)
  else if nib3 instruction = 0x8 ∧ n = 0x3 then
    let v1 := setReg s.var_registers (x &&& 0xF)
      (s.var_registers (x &&& 0xF) ^^^ s.var_registers (y &&& 0xF))
    let v2 := if s.system = .Chip8 then setReg v1 0xF 0 else v1
    some ({ s with var_registers := v2 }, .ok false)
  -- 8xy4 (lines 227-240): wrapping add, VF = carry out
  else if nib3 instruction = 0x8 ∧ n = 0x4 then
    let overflow := if 0xFF < s.var_registers (x &&& 0xF) + s.var_registers (y &&& 0xF)
                    then 1 else 0
    let v1 := setReg s.var_registers (x &&& 0xF)
      ((s.var_registers (x &&& 0xF) + s.var_registers (y &&& 0xF)) % 256)
    let v2 := setReg v1 0xF overflow
    some ({ s with var_registers := v2 }, .ok false)
  -- 8xy5 (lines 242-254): wrapping sub, VF = not-borrow
  else if nib3 instruction = 0x8 ∧ n = 0x5 then
    let borrow := if s.var_registers (y &&& 0xF) ≤ s.var_registers (x &&& 0xF) then 1 else 0
    let v1 := setReg s.var_registers (x &&& 0xF)
      (wsub8 (s.var_registers (x &&& 0xF)) (s.var_registers (y &&& 0xF)))
    let v2 := setReg v1 0xF borrow
    some ({ s with var_registers := v2 }, .ok false)
  -- 8xy7 (lines 256-268)
  else if nib3 instruction = 0x8 ∧ n = 0x7 then
    let borrow := if s.var_registers (x &&& 0xF) ≤ s.var_registers (y &&& 0xF) then 1 else 0
    let v1 := setReg s.var_registers (x &&& 0xF)
      (wsub8 (s.var_registers (y &&& 0xF)) (s.var_registers (x &&& 0xF)))
    let v2 := setReg v1 0xF borrow
    some ({ s with var_registers := v2 }, .ok false)
  -- 8xy6 (lines 270-281)
  else if nib3 instruction = 0x8 ∧ n = 0x6 then
    let v2 := exec8xy6 s.system s.var_registers x y
    some ({ s with var_registers := v2 }, .ok false)
  -- 8xyE (lines 283-294)
  else if nib3 instruction = 0x8 ∧ n = 0xE then
    let v2 := exec8xyE s.system s.var_registers x y
    some ({ s with var_registers := v2 }, .ok false)
  -- 6xnn (line 297)
  else if nib3 instruction = 0x6 then
    let v1 := setReg s.var_registers (x &&& 0xF) nn
    some ({ s with var_registers := v1 }, .ok false)
  -- 7xnn (lines 299-302): wrapping add, no flag
  else if nib3 instruction = 0x7 then
    let v1 := setReg s.var_registers (x &&& 0xF) ((s.var_registers (x &&& 0xF) + nn) % 256)
    some ({ s with var_registers := v1 }, .ok false)
  -- Annn (line 305)
  else if nib3 instruction = 0xA then
    some ({ s with index_register := nnn }, .ok false)
  -- Bnnn (lines 307-315): jump offset register is V0 Classic / Vx Extended
  else if nib3 instruction = 0xB then
    let pc1 := nnn + s.var_registers (if s.system = .SuperChip then x else 0)
    some ({ s with program_counter := pc1 }, .ok false)
  -- Cxnn (lines 317-320)
  else if nib3 instruction = 0xC then
    let v1 := setReg s.var_registers (x &&& 0xF) (random 0 &&& nn)
    some ({ s with var_registers := v1 }, .ok false)
  -- Dxyn (lines 322-420): always reports the display as updated
  else if nib3 instruction = 0xD then
    (execDxyn s x y n).map (fun s1 => (s1, .ok true))
  -- Ex9E (lines 422-427)
  else if nib3 instruction = 0xE ∧ nn = 0x9E then
    let pc1 := if (held_keys 0 >>> (s.var_registers (x &&& 0xF) &&& 0xF)) &&& 0x1 = 1
               then s.program_counter + 2 else s.program_counter
    some ({ s with program_counter := pc1 }, .ok false)
  -- ExA1 (lines 429-434)
  else if nib3 instruction = 0xE ∧ nn = 0xA1 then
    let pc1 := if (held_keys 0 >>> (s.var_registers (x &&& 0xF) &&& 0xF)) &&& 0x1 = 0
               then s.program_counter + 2 else s.program_counter
    some ({ s with program_counter := pc1 }, .ok false)
  -- Fx07 (line 437)
  else if nib3 instruction = 0xF ∧ nn = 0x07 then
    let v1 := setReg s.var_registers (x &&& 0xF) s.delay_timer
    some ({ s with var_registers := v1 }, .ok false)
  -- Fx15 (line 440)
  else if nib3 instruction = 0xF ∧ nn = 0x15 then
    some ({ s with delay_timer := s.var_registers (x &&& 0xF) }, .ok false)
  -- Fx18 (line 443)
  else if nib3 instruction = 0xF ∧ nn = 0x18 then
    some ({ s with sound_timer := s.var_registers (x &&& 0xF) }, .ok false)
  -- Fx1E (line 446): u16 add, wrapping
  else if nib3 instruction = 0xF ∧ nn = 0x1E then
    let ir1 := (s.index_register + s.var_registers (x &&& 0xF)) % 65536
    some ({ s with index_register := ir1 }, .ok false)
  -- Fx0A (lines 448-466): blocking key wait via mask comparison
  else if nib3 instruction = 0xF ∧ nn = 0x0A then
    some (execFx0A s x (held_keys 0), .ok false)
  -- Fx29 (lines 468-471)
  else if nib3 instruction = 0xF ∧ nn = 0x29 then
    let ir1 := 0x050 + (s.var_registers (x &&& 0xF) &&& 0xF) * 5
    some ({ s with index_register := ir1 }, .ok false)
  -- Fx33 (lines 473-481): BCD, written units (I+2) first
  else if nib3 instruction = 0xF ∧ nn = 0x33 then
    if s.index_register + 2 < 4096 then
      let m1 := setMem s.ram (s.index_register + 2) (s.var_registers (x &&& 0xF) % 10)
      let m2 := setMem m1 (s.index_register + 1) (s.var_registers (x &&& 0xF) / 10 % 10)
      let m3 := setMem m2 s.index_register (s.var_registers (x &&& 0xF) / 100 % 10)
      some ({ s with ram := m3 }, .ok false)
    else none
  -- Fx55 (lines 483-491)
  else if nib3 instruction = 0xF ∧ nn = 0x55 then
    (execFx55 s x).map (fun s1 => (s1, .ok false))
  -- Fx65 (lines 493-501)
  else if nib3 instruction = 0xF ∧ nn = 0x65 then
    (execFx65 s x).map (fun s1 => (s1, .ok false))
  -- fallback (lines 503-560): SUPER-CHIP system opcodes, else illegal
  else
    if s.system = .SuperChip then
      if instruction = 0x00FD then some (s, .error .ProgramExited)
      else if instruction = 0x00FE then some ({ s with high_res := false }, .ok false)
      else if instruction = 0x00FF then some ({ s with high_res := true }, .ok false)
      -- Fx75 / Fx85 are `todo!()` in the source: a panic
      else if instruction &&& 0xF0FF = 0xF075 then none
      else if instruction &&& 0xF0FF = 0xF085 then none
      else if instruction = 0x00FB then
        let d1 := scrollRight (if s.high_res then 4 else 8) s.display_buffer
        some ({ s with display_buffer := d1 }, .ok false)
      else if instruction = 0x00FC then
        let d1 := scrollLeft (if s.high_res then 4 else 8) s.display_buffer
        some ({ s with display_buffer := d1 }, .ok false)
      else if instruction &&& 0xFFF0 = 0x00C0 then
        let d1 := scrollDown (if s.high_res then n else n * 2) s.display_buffer
        some ({ s with display_buffer := d1 }, .ok false)
      else if instruction &&& 0xF0FF = 0xF030 then
        let ir1 := 0x0A0 + (s.var_registers (x &&& 0xF) &&& 0xF) * 10
        some ({ s with index_register := ir1 }, .ok false)
      else some (s, .error (.IllegalInstruction instruction))
    else some (s, .error (.IllegalInstruction instruction))

/-- `MachineState::tick` (lines 112-564): fetch (two ram reads, a Rust
panic — `none` — when the program counter reaches 0xFFF and the second
byte would be out of range), advance the program counter by 2
(`u16` add that cannot wrap under the fetch guard), then dispatch.  -/
def MachineState.tick (s : MachineState) (held_keys random : Nat → Nat) :
    Option (MachineState × Except Error Bool) :=
  if s.program_counter + 1 < 4096 then
    execInstr { s with program_counter := s.program_counter + 2 }
      s.instrAt held_keys random
  else none

/-- A constant all-zero callback (no keys held / zero random byte). -/
def kZero : Nat → Nat := fun _ => 0

/-- A constant zero random callback. -/
def rZero : Nat → Nat := fun _ => 0

/-- Outcome of driving `tick` repeatedly: a panic, a typed error, or a
still-running machine. -/
inductive RunOutcome where
  | crashed
  | failed (e : Error)
  | running (s : MachineState)

/-- Run `tick` a given number of times, stopping at the first panic or
typed error. -/
def runSteps (held_keys random : Nat → Nat) : Nat → MachineState → RunOutcome
  | 0, s => .running s
  | fuel + 1, s =>
    match s.tick held_keys random with
    | none => .crashed
    | some (_, .error e) => .failed e
    | some (s1, .ok _) => runSteps held_keys random fuel s1

/-- The call stack of a still-running outcome. -/
def stackOf : RunOutcome → Option (List Nat)
  | .running s => some s.stack
  | _ => none

/-- The error of a failed outcome. -/
def errOf : RunOutcome → Option Error
  | .failed e => some e
  | _ => none

/-- Seventeen consecutive `2nnn` call instructions: the instruction at
`0x200 + 2k` calls `0x202 + 2k`. -/
def prog17 : List Nat :=
  [0x22, 0x02, 0x22, 0x04, 0x22, 0x06, 0x22, 0x08, 0x22, 0x0A, 0x22, 0x0C,
   0x22, 0x0E, 0x22, 0x10, 0x22, 0x12, 0x22, 0x14, 0x22, 0x16, 0x22, 0x18,
   0x22, 0x1A, 0x22, 0x1C, 0x22, 0x1E, 0x22, 0x20, 0x22, 0x22]

/-- Fresh Classic machine loaded with `prog17`. -/
def sCalls : MachineState := (MachineState.new .Chip8).load_program prog17

/-- SuperChip machine in high-res mode with one lit pixel at (0,0) and a
`00FB` (scroll right) instruction at 0x200. -/
def sScroll : MachineState :=
  { MachineState.new .SuperChip with
      high_res := true,
      display_buffer := fun a b => a == 0 && b == 0,
      ram := fun a => if a = 0x200 then 0x00 else if a = 0x201 then 0xFB else 0 }

/-- Fresh Classic machine loaded with a single `1FFF` jump. -/
def sJump : MachineState := (MachineState.new .Chip8).load_program [0x1F, 0xFF]

/-- A machine whose program counter is already at 0xFFF, where the fetch
of the second instruction byte indexes out of bounds. -/
def sHighPC : MachineState := { MachineState.empty with program_counter := 0xFFF }

/-- SuperChip machine in high-res mode with a 2-row sprite `80 80` at
address 0 (the default `index_register`). -/
def sDraw : MachineState :=
  { MachineState.new .SuperChip with
      high_res := true,
      ram := fun a => if a = 0 then 0x80 else if a = 1 then 0x80 else 0 }

/-- Fresh Classic machine loaded with a single `00EE` return. -/
def sRet : MachineState := (MachineState.new .Chip8).load_program [0x00, 0xEE]

/-- Fresh Classic machine loaded with a single `00E0` clear. -/
def sClear : MachineState := (MachineState.new .Chip8).load_program [0x00, 0xE0]

/-- Fresh Classic machine loaded with the (Classic-)illegal instruction
`0x00FD`. -/
def sIll : MachineState := (MachineState.new .Chip8).load_program [0x00, 0xFD]

/-- Register file with `V0 = 1` and all other registers 0. -/
def vC : Nat → Nat := fun i => if i = 0 then 1 else 0

/-- Classic machine waiting on `F30A` with key 0 latched as previously
held (`previous_keystate = 1`). -/
def sKey : MachineState :=
  { (MachineState.new .Chip8).load_program [0xF3, 0x0A] with previous_keystate := 1 }

/-- Machine with `index_register = 0x300` and register `Vi = i`. -/
def sRegs : MachineState :=
  { MachineState.empty with index_register := 0x300, var_registers := fun i => i }

/-- Classic (low-res) machine with a one-row sprite `0x80` at address 0. -/
def sLowDraw : MachineState :=
  { MachineState.new .Chip8 with ram := fun a => if a = 0 then 0x80 else 0 }
set_option maxHeartbeats 2000000 in
/-- Helper for the error-path frame condition: when the dispatcher returns
a typed error, the state is returned untouched. -/
theorem execInstr_error_frame (s : MachineState) (instr : Nat) (keys rand : Nat → Nat)
    (s' : MachineState) (e : Error)
    (h : execInstr s instr keys rand = some (s', .error e)) : s' = s := by
  rw [execInstr] at h
  simp only [] at h
  by_cases c0 : nib3 instr = 0x0 ∧ decN instr = 0x0 ∧ decY instr = 0xE
  · rw [if_pos c0] at h
    simp at h
  rw [if_neg c0] at h
  by_cases c1 : nib3 instr = 0x0 ∧ decN instr = 0xE ∧ decY instr = 0xE
  · rw [if_pos c1] at h
    simp at h
  rw [if_neg c1] at h
  by_cases c2 : nib3 instr = 0x1
  · rw [if_pos c2] at h
    simp at h
  rw [if_neg c2] at h
  by_cases c3 : nib3 instr = 0x2
  · rw [if_pos c3] at h
    by_cases hin : s.stack.length < 16
    · rw [if_pos hin] at h; simp at h
    rw [if_neg hin] at h
    simp only [Option.some.injEq, Prod.mk.injEq] at h
    exact h.1.symm
  rw [if_neg c3] at h
  by_cases c4 : nib3 instr = 0x3
  · rw [if_pos c4] at h
    simp at h
  rw [if_neg c4] at h
  by_cases c5 : nib3 instr = 0x4
  · rw [if_pos c5] at h
    simp at h
  rw [if_neg c5] at h
  by_cases c6 : nib3 instr = 0x5
  · rw [if_pos c6] at h
    simp at h
  rw [if_neg c6] at h
  by_cases c7 : nib3 instr = 0x9
  · rw [if_pos c7] at h
    simp at h
  rw [if_neg c7] at h
  by_cases c8 : nib3 instr = 0x8 ∧ decN instr = 0x0
  · rw [if_pos c8] at h
    simp at h
  rw [if_neg c8] at h
  by_cases c9 : nib3 instr = 0x8 ∧ decN instr = 0x1
  · rw [if_pos c9] at h
    simp at h
  rw [if_neg c9] at h
  by_cases c10 : nib3 instr = 0x8 ∧ decN instr = 0x2
  · rw [if_pos c10] at h
    simp at h
  rw [if_neg c10] at h
  by_cases c11 : nib3 instr = 0x8 ∧ decN instr = 0x3
  · rw [if_pos c11] at h
    simp at h
  rw [if_neg c11] at h
  by_cases c12 : nib3 instr = 0x8 ∧ decN instr = 0x4
  · rw [if_pos c12] at h
    simp at h
  rw [if_neg c12] at h
  by_cases c13 : nib3 instr = 0x8 ∧ decN instr = 0x5
  · rw [if_pos c13] at h
    simp at h
  rw [if_neg c13] at h
  by_cases c14 : nib3 instr = 0x8 ∧ decN instr = 0x7
  · rw [if_pos c14] at h
    simp at h
  rw [if_neg c14] at h
  by_cases c15 : nib3 instr = 0x8 ∧ decN instr = 0x6
  · rw [if_pos c15] at h
    simp at h
  rw [if_neg c15] at h
  by_cases c16 : nib3 instr = 0x8 ∧ decN instr = 0xE
  · rw [if_pos c16] at h
    simp at h
  rw [if_neg c16] at h
  by_cases c17 : nib3 instr = 0x6
  · rw [if_pos c17] at h
    simp at h
  rw [if_neg c17] at h
  by_cases c18 : nib3 instr = 0x7
  · rw [if_pos c18] at h
    simp at h
  rw [if_neg c18] at h
  by_cases c19 : nib3 instr = 0xA
  · rw [if_pos c19] at h
    simp at h
  rw [if_neg c19] at h
  by_cases c20 : nib3 instr = 0xB
  · rw [if_pos c20] at h
    simp at h
  rw [if_neg c20] at h
  by_cases c21 : nib3 instr = 0xC
  · rw [if_pos c21] at h
    simp at h
  rw [if_neg c21] at h
  by_cases c22 : nib3 instr = 0xD
  · rw [if_pos c22] at h
    simp [Option.map_eq_some'] at h
  rw [if_neg c22] at h
  by_cases c23 : nib3 instr = 0xE ∧ decNN instr = 0x9E
  · rw [if_pos c23] at h
    simp at h
  rw [if_neg c23] at h
  by_cases c24 : nib3 instr = 0xE ∧ decNN instr = 0xA1
  · rw [if_pos c24] at h
    simp at h
  rw [if_neg c24] at h
  by_cases c25 : nib3 instr = 0xF ∧ decNN instr = 0x07
  · rw [if_pos c25] at h
    simp at h
  rw [if_neg c25] at h
  by_cases c26 : nib3 instr = 0xF ∧ decNN instr = 0x15
  · rw [if_pos c26] at h
    simp at h
  rw [if_neg c26] at h
  by_cases c27 : nib3 instr = 0xF ∧ decNN instr = 0x18
  · rw [if_pos c27] at h
    simp at h
  rw [if_neg c27] at h
  by_cases c28 : nib3 instr = 0xF ∧ decNN instr = 0x1E
  · rw [if_pos c28] at h
    simp at h
  rw [if_neg c28] at h
  by_cases c29 : nib3 instr = 0xF ∧ decNN instr = 0x0A
  · rw [if_pos c29] at h
    simp at h
  rw [if_neg c29] at h
  by_cases c30 : nib3 instr = 0xF ∧ decNN instr = 0x29
  · rw [if_pos c30] at h
    simp at h
  rw [if_neg c30] at h
  by_cases c31 : nib3 instr = 0xF ∧ decNN instr = 0x33
  · rw [if_pos c31] at h
    by_cases hin : s.index_register + 2 < 4096
    · rw [if_pos hin] at h; simp at h
    rw [if_neg hin] at h; simp at h
  rw [if_neg c31] at h
  by_cases c32 : nib3 instr = 0xF ∧ decNN instr = 0x55
  · rw [if_pos c32] at h
    simp [Option.map_eq_some'] at h
  rw [if_neg c32] at h
  by_cases c33 : nib3 instr = 0xF ∧ decNN instr = 0x65
  · rw [if_pos c33] at h
    simp [Option.map_eq_some'] at h
  rw [if_neg c33] at h
  by_cases csys : s.system = EmulationSystem.SuperChip
  · rw [if_pos csys] at h
    by_cases f0 : instr = 0x00FD
    · rw [if_pos f0] at h
      simp only [Option.some.injEq, Prod.mk.injEq] at h
      exact h.1.symm
    rw [if_neg f0] at h
    by_cases f1 : instr = 0x00FE
    · rw [if_pos f1] at h
      simp at h
    rw [if_neg f1] at h
    by_cases f2 : instr = 0x00FF
    · rw [if_pos f2] at h
      simp at h
    rw [if_neg f2] at h
    by_cases f3 : instr &&& 0xF0FF = 0xF075
    · rw [if_pos f3] at h
      simp at h
    rw [if_neg f3] at h
    by_cases f4 : instr &&& 0xF0FF = 0xF085
    · rw [if_pos f4] at h
      simp at h
    rw [if_neg f4] at h
    by_cases f5 : instr = 0x00FB
    · rw [if_pos f5] at h
      simp at h
    rw [if_neg f5] at h
    by_cases f6 : instr = 0x00FC
    · rw [if_pos f6] at h
      simp at h
    rw [if_neg f6] at h
    by_cases f7 : instr &&& 0xFFF0 = 0x00C0
    · rw [if_pos f7] at h
      simp at h
    rw [if_neg f7] at h
    by_cases f8 : instr &&& 0xF0FF = 0xF030
    · rw [if_pos f8] at h
      simp at h
    rw [if_neg f8] at h
    simp only [Option.some.injEq, Prod.mk.injEq] at h
    exact h.1.symm
  · rw [if_neg csys] at h
    simp only [Option.some.injEq, Prod.mk.injEq] at h
    exact h.1.symm

/-- Auxiliary: an instruction whose top nibble is neither 0xD nor 0x0 is
neither the draw nor the clear pattern. -/
theorem notRHS_of_nib (i k : Nat) (h : nib3 i = k) (h13 : k ≠ 0xD) (h0 : k ≠ 0x0) :
    ¬(nib3 i = 0xD ∨ (nib3 i = 0x0 ∧ decN i = 0x0 ∧ decY i = 0xE)) := by
  rintro (a | ⟨a, -, -⟩)
  · exact h13 (h.symm.trans a)
  · exact h0 (h.symm.trans a)

/-- Auxiliary: the `00EE` pattern (low nibble 0xE) is not the clear or draw
pattern. -/
theorem notRHS_ret (i : Nat) (h : nib3 i = 0x0 ∧ decN i = 0xE ∧ decY i = 0xE) :
    ¬(nib3 i = 0xD ∨ (nib3 i = 0x0 ∧ decN i = 0x0 ∧ decY i = 0xE)) := by
  rintro (a | ⟨-, a, -⟩)
  · rw [h.1] at a; exact absurd a (by decide)
  · rw [h.2.1] at a; exact absurd a (by decide)

set_option maxHeartbeats 2000000 in
/-- Helper: a successful dispatch reports the display as updated exactly for
the clear-screen pattern (top nibble 0, low nibble 0, y = 0xE) and the draw
instruction (top nibble 0xD), independent of whether a pixel changed. -/
theorem execInstr_ok_iff (s : MachineState) (instr : Nat) (keys rand : Nat → Nat)
    (s' : MachineState) (b : Bool)
    (h : execInstr s instr keys rand = some (s', .ok b)) :
    b = true ↔
      (nib3 instr = 0xD ∨ (nib3 instr = 0x0 ∧ decN instr = 0x0 ∧ decY instr = 0xE)) := by
  rw [execInstr] at h
  simp only [] at h
  by_cases c0 : nib3 instr = 0x0 ∧ decN instr = 0x0 ∧ decY instr = 0xE
  · rw [if_pos c0] at h
    simp only [Option.some.injEq, Prod.mk.injEq, Except.ok.injEq] at h
    obtain ⟨-, hb⟩ := h
    subst hb
    exact iff_of_true rfl (Or.inr c0)
  rw [if_neg c0] at h
  by_cases c1 : nib3 instr = 0x0 ∧ decN instr = 0xE ∧ decY instr = 0xE
  · rw [if_pos c1] at h
    simp only [Option.some.injEq, Prod.mk.injEq, Except.ok.injEq] at h
    obtain ⟨-, hb⟩ := h
    subst hb
    exact iff_of_false Bool.false_ne_true (notRHS_ret instr c1)
  rw [if_neg c1] at h
  by_cases c2 : nib3 instr = 0x1
  · rw [if_pos c2] at h
    simp only [Option.some.injEq, Prod.mk.injEq, Except.ok.injEq] at h
    obtain ⟨-, hb⟩ := h
    subst hb
    exact iff_of_false Bool.false_ne_true (notRHS_of_nib instr 0x1 c2 (by decide) (by decide))
  rw [if_neg c2] at h
  by_cases c3 : nib3 instr = 0x2
  · rw [if_pos c3] at h
    by_cases hin : s.stack.length < 16
    · rw [if_pos hin] at h
      simp only [Option.some.injEq, Prod.mk.injEq, Except.ok.injEq] at h
      obtain ⟨-, hb⟩ := h
      subst hb
      exact iff_of_false Bool.false_ne_true (notRHS_of_nib instr 0x2 c3 (by decide) (by decide))
    rw [if_neg hin] at h
    simp at h
  rw [if_neg c3] at h
  by_cases c4 : nib3 instr = 0x3
  · rw [if_pos c4] at h
    simp only [Option.some.injEq, Prod.mk.injEq, Except.ok.injEq] at h
    obtain ⟨-, hb⟩ := h
    subst hb
    exact iff_of_false Bool.false_ne_true (notRHS_of_nib instr 0x3 c4 (by decide) (by decide))
  rw [if_neg c4] at h
  by_cases c5 : nib3 instr = 0x4
  · rw [if_pos c5] at h
    simp only [Option.some.injEq, Prod.mk.injEq, Except.ok.injEq] at h
    obtain ⟨-, hb⟩ := h
    subst hb
    exact iff_of_false Bool.false_ne_true (notRHS_of_nib instr 0x4 c5 (by decide) (by decide))
  rw [if_neg c5] at h
  by_cases c6 : nib3 instr = 0x5
  · rw [if_pos c6] at h
    simp only [Option.some.injEq, Prod.mk.injEq, Except.ok.injEq] at h
    obtain ⟨-, hb⟩ := h
    subst hb
    exact iff_of_false Bool.false_ne_true (notRHS_of_nib instr 0x5 c6 (by decide) (by decide))
  rw [if_neg c6] at h
  by_cases c7 : nib3 instr = 0x9
  · rw [if_pos c7] at h
    simp only [Option.some.injEq, Prod.mk.injEq, Except.ok.injEq] at h
    obtain ⟨-, hb⟩ := h
    subst hb
    exact iff_of_false Bool.false_ne_true (notRHS_of_nib instr 0x9 c7 (by decide) (by decide))
  rw [if_neg c7] at h
  by_cases c8 : nib3 instr = 0x8 ∧ decN instr = 0x0
  · rw [if_pos c8] at h
    simp only [Option.some.injEq, Prod.mk.injEq, Except.ok.injEq] at h
    obtain ⟨-, hb⟩ := h
    subst hb
    exact iff_of_false Bool.false_ne_true (notRHS_of_nib instr 0x8 c8.1 (by decide) (by decide))
  rw [if_neg c8] at h
  by_cases c9 : nib3 instr = 0x8 ∧ decN instr = 0x1
  · rw [if_pos c9] at h
    simp only [Option.some.injEq, Prod.mk.injEq, Except.ok.injEq] at h
    obtain ⟨-, hb⟩ := h
    subst hb
    exact iff_of_false Bool.false_ne_true (notRHS_of_nib instr 0x8 c9.1 (by decide) (by decide))
  rw [if_neg c9] at h
  by_cases c10 : nib3 instr = 0x8 ∧ decN instr = 0x2
  · rw [if_pos c10] at h
    simp only [Option.some.injEq, Prod.mk.injEq, Except.ok.injEq] at h
    obtain ⟨-, hb⟩ := h
    subst hb
    exact iff_of_false Bool.false_ne_true (notRHS_of_nib instr 0x8 c10.1 (by decide) (by decide))
  rw [if_neg c10] at h
  by_cases c11 : nib3 instr = 0x8 ∧ decN instr = 0x3
  · rw [if_pos c11] at h
    simp only [Option.some.injEq, Prod.mk.injEq, Except.ok.injEq] at h
    obtain ⟨-, hb⟩ := h
    subst hb
    exact iff_of_false Bool.false_ne_true (notRHS_of_nib instr 0x8 c11.1 (by decide) (by decide))
  rw [if_neg c11] at h
  by_cases c12 : nib3 instr = 0x8 ∧ decN instr = 0x4
  · rw [if_pos c12] at h
    simp only [Option.some.injEq, Prod.mk.injEq, Except.ok.injEq] at h
    obtain ⟨-, hb⟩ := h
    subst hb
    exact iff_of_false Bool.false_ne_true (notRHS_of_nib instr 0x8 c12.1 (by decide) (by decide))
  rw [if_neg c12] at h
  by_cases c13 : nib3 instr = 0x8 ∧ decN instr = 0x5
  · rw [if_pos c13] at h
    simp only [Option.some.injEq, Prod.mk.injEq, Except.ok.injEq] at h
    obtain ⟨-, hb⟩ := h
    subst hb
    exact iff_of_false Bool.false_ne_true (notRHS_of_nib instr 0x8 c13.1 (by decide) (by decide))
  rw [if_neg c13] at h
  by_cases c14 : nib3 instr = 0x8 ∧ decN instr = 0x7
  · rw [if_pos c14] at h
    simp only [Option.some.injEq, Prod.mk.injEq, Except.ok.injEq] at h
    obtain ⟨-, hb⟩ := h
    subst hb
    exact iff_of_false Bool.false_ne_true (notRHS_of_nib instr 0x8 c14.1 (by decide) (by decide))
  rw [if_neg c14] at h
  by_cases c15 : nib3 instr = 0x8 ∧ decN instr = 0x6
  · rw [if_pos c15] at h
    simp only [Option.some.injEq, Prod.mk.injEq, Except.ok.injEq] at h
    obtain ⟨-, hb⟩ := h
    subst hb
    exact iff_of_false Bool.false_ne_true (notRHS_of_nib instr 0x8 c15.1 (by decide) (by decide))
  rw [if_neg c15] at h
  by_cases c16 : nib3 instr = 0x8 ∧ decN instr = 0xE
  · rw [if_pos c16] at h
    simp only [Option.some.injEq, Prod.mk.injEq, Except.ok.injEq] at h
    obtain ⟨-, hb⟩ := h
    subst hb
    exact iff_of_false Bool.false_ne_true (notRHS_of_nib instr 0x8 c16.1 (by decide) (by decide))
  rw [if_neg c16] at h
  by_cases c17 : nib3 instr = 0x6
  · rw [if_pos c17] at h
    simp only [Option.some.injEq, Prod.mk.injEq, Except.ok.injEq] at h
    obtain ⟨-, hb⟩ := h
    subst hb
    exact iff_of_false Bool.false_ne_true (notRHS_of_nib instr 0x6 c17 (by decide) (by decide))
  rw [if_neg c17] at h
  by_cases c18 : nib3 instr = 0x7
  · rw [if_pos c18] at h
    simp only [Option.some.injEq, Prod.mk.injEq, Except.ok.injEq] at h
    obtain ⟨-, hb⟩ := h
    subst hb
    exact iff_of_false Bool.false_ne_true (notRHS_of_nib instr 0x7 c18 (by decide) (by decide))
  rw [if_neg c18] at h
  by_cases c19 : nib3 instr = 0xA
  · rw [if_pos c19] at h
    simp only [Option.some.injEq, Prod.mk.injEq, Except.ok.injEq] at h
    obtain ⟨-, hb⟩ := h
    subst hb
    exact iff_of_false Bool.false_ne_true (notRHS_of_nib instr 0xA c19 (by decide) (by decide))
  rw [if_neg c19] at h
  by_cases c20 : nib3 instr = 0xB
  · rw [if_pos c20] at h
    simp only [Option.some.injEq, Prod.mk.injEq, Except.ok.injEq] at h
    obtain ⟨-, hb⟩ := h
    subst hb
    exact iff_of_false Bool.false_ne_true (notRHS_of_nib instr 0xB c20 (by decide) (by decide))
  rw [if_neg c20] at h
  by_cases c21 : nib3 instr = 0xC
  · rw [if_pos c21] at h
    simp only [Option.some.injEq, Prod.mk.injEq, Except.ok.injEq] at h
    obtain ⟨-, hb⟩ := h
    subst hb
    exact iff_of_false Bool.false_ne_true (notRHS_of_nib instr 0xC c21 (by decide) (by decide))
  rw [if_neg c21] at h
  by_cases c22 : nib3 instr = 0xD
  · rw [if_pos c22] at h
    simp only [Option.map_eq_some'] at h
    obtain ⟨a, -, ha⟩ := h
    simp only [Prod.mk.injEq, Except.ok.injEq] at ha
    obtain ⟨-, hb⟩ := ha
    subst hb
    exact iff_of_true rfl (Or.inl c22)
  rw [if_neg c22] at h
  by_cases c23 : nib3 instr = 0xE ∧ decNN instr = 0x9E
  · rw [if_pos c23] at h
    simp only [Option.some.injEq, Prod.mk.injEq, Except.ok.injEq] at h
    obtain ⟨-, hb⟩ := h
    subst hb
    exact iff_of_false Bool.false_ne_true (notRHS_of_nib instr 0xE c23.1 (by decide) (by decide))
  rw [if_neg c23] at h
  by_cases c24 : nib3 instr = 0xE ∧ decNN instr = 0xA1
  · rw [if_pos c24] at h
    simp only [Option.some.injEq, Prod.mk.injEq, Except.ok.injEq] at h
    obtain ⟨-, hb⟩ := h
    subst hb
    exact iff_of_false Bool.false_ne_true (notRHS_of_nib instr 0xE c24.1 (by decide) (by decide))
  rw [if_neg c24] at h
  by_cases c25 : nib3 instr = 0xF ∧ decNN instr = 0x07
  · rw [if_pos c25] at h
    simp only [Option.some.injEq, Prod.mk.injEq, Except.ok.injEq] at h
    obtain ⟨-, hb⟩ := h
    subst hb
    exact iff_of_false Bool.false_ne_true (notRHS_of_nib instr 0xF c25.1 (by decide) (by decide))
  rw [if_neg c25] at h
  by_cases c26 : nib3 instr = 0xF ∧ decNN instr = 0x15
  · rw [if_pos c26] at h
    simp only [Option.some.injEq, Prod.mk.injEq, Except.ok.injEq] at h
    obtain ⟨-, hb⟩ := h
    subst hb
    exact iff_of_false Bool.false_ne_true (notRHS_of_nib instr 0xF c26.1 (by decide) (by decide))
  rw [if_neg c26] at h
  by_cases c27 : nib3 instr = 0xF ∧ decNN instr = 0x18
  · rw [if_pos c27] at h
    simp only [Option.some.injEq, Prod.mk.injEq, Except.ok.injEq] at h
    obtain ⟨-, hb⟩ := h
    subst hb
    exact iff_of_false Bool.false_ne_true (notRHS_of_nib instr 0xF c27.1 (by decide) (by decide))
  rw [if_neg c27] at h
  by_cases c28 : nib3 instr = 0xF ∧ decNN instr = 0x1E
  · rw [if_pos c28] at h
    simp only [Option.some.injEq, Prod.mk.injEq, Except.ok.injEq] at h
    obtain ⟨-, hb⟩ := h
    subst hb
    exact iff_of_false Bool.false_ne_true (notRHS_of_nib instr 0xF c28.1 (by decide) (by decide))
  rw [if_neg c28] at h
  by_cases c29 : nib3 instr = 0xF ∧ decNN instr = 0x0A
  · rw [if_pos c29] at h
    simp only [Option.some.injEq, Prod.mk.injEq, Except.ok.injEq] at h
    obtain ⟨-, hb⟩ := h
    subst hb
    exact iff_of_false Bool.false_ne_true (notRHS_of_nib instr 0xF c29.1 (by decide) (by decide))
  rw [if_neg c29] at h
  by_cases c30 : nib3 instr = 0xF ∧ decNN instr = 0x29
  · rw [if_pos c30] at h
    simp only [Option.some.injEq, Prod.mk.injEq, Except.ok.injEq] at h
    obtain ⟨-, hb⟩ := h
    subst hb
    exact iff_of_false Bool.false_ne_true (notRHS_of_nib instr 0xF c30.1 (by decide) (by decide))
  rw [if_neg c30] at h
  by_cases c31 : nib3 instr = 0xF ∧ decNN instr = 0x33
  · rw [if_pos c31] at h
    by_cases hin : s.index_register + 2 < 4096
    · rw [if_pos hin] at h
      simp only [Option.some.injEq, Prod.mk.injEq, Except.ok.injEq] at h
      obtain ⟨-, hb⟩ := h
      subst hb
      exact iff_of_false Bool.false_ne_true (notRHS_of_nib instr 0xF c31.1 (by decide) (by decide))
    rw [if_neg hin] at h
    simp at h
  rw [if_neg c31] at h
  by_cases c32 : nib3 instr = 0xF ∧ decNN instr = 0x55
  · rw [if_pos c32] at h
    simp only [Option.map_eq_some'] at h
    obtain ⟨a, -, ha⟩ := h
    simp only [Prod.mk.injEq, Except.ok.injEq] at ha
    obtain ⟨-, hb⟩ := ha
    subst hb
    exact iff_of_false Bool.false_ne_true (notRHS_of_nib instr 0xF c32.1 (by decide) (by decide))
  rw [if_neg c32] at h
  by_cases c33 : nib3 instr = 0xF ∧ decNN instr = 0x65
  · rw [if_pos c33] at h
    simp only [Option.map_eq_some'] at h
    obtain ⟨a, -, ha⟩ := h
    simp only [Prod.mk.injEq, Except.ok.injEq] at ha
    obtain ⟨-, hb⟩ := ha
    subst hb
    exact iff_of_false Bool.false_ne_true (notRHS_of_nib instr 0xF c33.1 (by decide) (by decide))
  rw [if_neg c33] at h
  by_cases csys : s.system = EmulationSystem.SuperChip
  · rw [if_pos csys] at h
    by_cases f0 : instr = 0x00FD
    · rw [if_pos f0] at h
      simp at h
    rw [if_neg f0] at h
    by_cases f1 : instr = 0x00FE
    · rw [if_pos f1] at h
      simp only [Option.some.injEq, Prod.mk.injEq, Except.ok.injEq] at h
      obtain ⟨-, hb⟩ := h
      subst hb
      exact iff_of_false Bool.false_ne_true (fun hr => hr.elim (fun a => absurd a c22) (fun a => absurd a c0))
    rw [if_neg f1] at h
    by_cases f2 : instr = 0x00FF
    · rw [if_pos f2] at h
      simp only [Option.some.injEq, Prod.mk.injEq, Except.ok.injEq] at h
      obtain ⟨-, hb⟩ := h
      subst hb
      exact iff_of_false Bool.false_ne_true (fun hr => hr.elim (fun a => absurd a c22) (fun a => absurd a c0))
    rw [if_neg f2] at h
    by_cases f3 : instr &&& 0xF0FF = 0xF075
    · rw [if_pos f3] at h
      simp at h
    rw [if_neg f3] at h
    by_cases f4 : instr &&& 0xF0FF = 0xF085
    · rw [if_pos f4] at h
      simp at h
    rw [if_neg f4] at h
    by_cases f5 : instr = 0x00FB
    · rw [if_pos f5] at h
      simp only [Option.some.injEq, Prod.mk.injEq, Except.ok.injEq] at h
      obtain ⟨-, hb⟩ := h
      subst hb
      exact iff_of_false Bool.false_ne_true (fun hr => hr.elim (fun a => absurd a c22) (fun a => absurd a c0))
    rw [if_neg f5] at h
    by_cases f6 : instr = 0x00FC
    · rw [if_pos f6] at h
      simp only [Option.some.injEq, Prod.mk.injEq, Except.ok.injEq] at h
      obtain ⟨-, hb⟩ := h
      subst hb
      exact iff_of_false Bool.false_ne_true (fun hr => hr.elim (fun a => absurd a c22) (fun a => absurd a c0))
    rw [if_neg f6] at h
    by_cases f7 : instr &&& 0xFFF0 = 0x00C0
    · rw [if_pos f7] at h
      simp only [Option.some.injEq, Prod.mk.injEq, Except.ok.injEq] at h
      obtain ⟨-, hb⟩ := h
      subst hb
      exact iff_of_false Bool.false_ne_true (fun hr => hr.elim (fun a => absurd a c22) (fun a => absurd a c0))
    rw [if_neg f7] at h
    by_cases f8 : instr &&& 0xF0FF = 0xF030
    · rw [if_pos f8] at h
      simp only [Option.some.injEq, Prod.mk.injEq, Except.ok.injEq] at h
      obtain ⟨-, hb⟩ := h
      subst hb
      exact iff_of_false Bool.false_ne_true (fun hr => hr.elim (fun a => absurd a c22) (fun a => absurd a c0))
    rw [if_neg f8] at h
    simp at h
  · rw [if_neg csys] at h
    simp at h

/-- C10 (confirmed): whenever `tick` returns a typed error
(`StackOverflow`, `IllegalInstruction` or `ProgramExited`), the returned
state is exactly the input state with the program counter advanced by 2
by the fetch; no other field is mutated. -/
theorem tick_error_frame (s : MachineState) (keys rand : Nat → Nat)
    (s' : MachineState) (e : Error)
    (h : s.tick keys rand = some (s', .error e)) :
    s' = { s with program_counter := s.program_counter + 2 } := by
  rw [MachineState.tick] at h
  by_cases hpc : s.program_counter + 1 < 4096
  · rw [if_pos hpc] at h
    exact execInstr_error_frame _ _ _ _ _ _ h
  · rw [if_neg hpc] at h
    simp at h

/-- Witness for C10: the Classic machine meets an illegal `0x00FD` and
the error leaves everything but the advanced program counter intact. -/
theorem tick_error_frame_witness :
    (sIll.tick kZero rZero).map Prod.fst =
      some { sIll with program_counter := sIll.program_counter + 2 } := by
  have h : sIll.tick kZero rZero =
      some ({ sIll with program_counter := sIll.program_counter + 2 },
        .error (.IllegalInstruction 0x00FD)) := by rfl
  have h2 := tick_error_frame sIll kZero rZero _ (.IllegalInstruction 0x00FD) h
  rw [h, Option.map_some']

/-- C1 (corrected): a `tick` that returns `Ok b` has `b = true` exactly
when the fetched instruction matches the clear pattern (top nibble 0, low
nibble 0, y = 0xE) or is a `Dxyn` draw — independently of whether any
pixel actually changed; in particular the scroll instructions
`00FB`/`00FC`/`00CN` mutate the buffer yet report `false`. -/
theorem tick_reports_update_iff (s : MachineState) (keys rand : Nat → Nat)
    (s' : MachineState) (b : Bool)
    (h : s.tick keys rand = some (s', .ok b)) :
    b = true ↔
      (nib3 s.instrAt = 0xD ∨
        (nib3 s.instrAt = 0x0 ∧ decN s.instrAt = 0x0 ∧ decY s.instrAt = 0xE)) := by
  rw [MachineState.tick] at h
  by_cases hpc : s.program_counter + 1 < 4096
  · rw [if_pos hpc] at h
    exact execInstr_ok_iff _ _ _ _ _ _ h
  · rw [if_neg hpc] at h
    simp at h

/-- Witness for C1's amended theorem, at a `00E0` clear. -/
theorem tick_reports_update_iff_witness :
    true = true ↔
      (nib3 sClear.instrAt = 0xD ∨
        (nib3 sClear.instrAt = 0x0 ∧ decN sClear.instrAt = 0x0 ∧
          decY sClear.instrAt = 0xE)) :=
  tick_reports_update_iff sClear kZero rZero
    { sClear with program_counter := 0x202, display_buffer := fun _ _ => false } true rfl

/-- Counterexample for C1 as stated: the scroll `00FB` moves the lit
pixel from column 0 to column 4 (the display buffer is mutated), yet
`tick` returns `Ok false`. -/
theorem scroll_mutates_but_reports_false :
    (sScroll.tick kZero rZero).map (fun p => (p.2, p.1.display_buffer 4 0)) =
        some (.ok false, true) ∧
      sScroll.display_buffer 4 0 = false :=
  ⟨rfl, rfl⟩

/-- Counterexample for C2 as stated: from a freshly constructed machine
loaded with the program `1F FF`, one tick reaches
`program_counter = 0xFFF`, which is odd. -/
theorem pc_stays_even_counterexample :
    (sJump.tick kZero rZero).map (fun p => p.1.program_counter) = some 0xFFF ∧
      0xFFF % 2 = 1 :=
  ⟨rfl, rfl⟩

/-- C2 (corrected): the program counter need not stay even — a `1nnn`
jump with odd `nnn` makes it odd — and `tick` neither wraps nor clamps:
whenever `program_counter + 1` would index past 0xFFF the fetch is an
out-of-bounds access (a panic, modelled as `none`); in particular after
the jump to 0xFFF the very next tick panics. -/
theorem tick_no_wrap_or_clamp :
    (∀ (s : MachineState) (keys rand : Nat → Nat),
        4096 ≤ s.program_counter + 1 → s.tick keys rand = none) ∧
      (sJump.tick kZero rZero).map (fun p => p.1.program_counter) = some 0xFFF ∧
      ((sJump.tick kZero rZero).bind fun p => p.1.tick kZero rZero) = none := by
  refine ⟨fun s keys rand h => ?_, rfl, rfl⟩
  rw [MachineState.tick, if_neg (by omega)]

/-- Witness for C2's amended theorem: at `program_counter = 0xFFF` the
fetch panics. -/
theorem tick_no_wrap_or_clamp_witness : sHighPC.tick kZero rZero = none :=
  tick_no_wrap_or_clamp.1 sHighPC kZero rZero (by decide)

/-- C6 (confirmed): seventeen consecutive `2nnn` calls from an empty
stack: the first 16 succeed and push the post-fetch return addresses in
call order; the 17th fails with `StackOverflow`. -/
theorem seventeen_calls_overflow :
    stackOf (runSteps kZero rZero 16 sCalls) =
        some [0x202, 0x204, 0x206, 0x208, 0x20A, 0x20C, 0x20E, 0x210,
              0x212, 0x214, 0x216, 0x218, 0x21A, 0x21C, 0x21E, 0x220] ∧
      errOf (runSteps kZero rZero 17 sCalls) = some .StackOverflow :=
  ⟨rfl, rfl⟩

/-- C9 (confirmed): `tick` is deterministic and side-effect-pure: equal
states and callbacks returning equal value sequences give equal results
(state and return value). -/
theorem tick_deterministic (s1 s2 : MachineState) (k1 k2 r1 r2 : Nat → Nat)
    (hs : s1 = s2) (hk : ∀ t, k1 t = k2 t) (hr : ∀ t, r1 t = r2 t) :
    s1.tick k1 r1 = s2.tick k2 r2 := by
  have hk' : k1 = k2 := funext hk
  have hr' : r1 = r2 := funext hr
  rw [hs, hk', hr']

/-- Witness for C9. -/
theorem tick_deterministic_witness :
    MachineState.empty.tick kZero rZero = MachineState.empty.tick kZero rZero :=
  tick_deterministic MachineState.empty MachineState.empty kZero kZero rZero rZero
    rfl (fun _ => rfl) (fun _ => rfl)

/-- C7 (confirmed): executing `00EE` with an empty call stack sets the
program counter to 0x200 and returns successfully — it never produces an
error. -/
theorem ret_on_empty_stack (s : MachineState) (keys rand : Nat → Nat)
    (hpc : s.program_counter + 1 < 4096)
    (h0 : s.ram s.program_counter = 0x00)
    (h1 : s.ram (s.program_counter + 1) = 0xEE)
    (hstk : s.stack = []) :
    s.tick keys rand = some ({ s with program_counter := 0x200, stack := [] }, .ok false) := by
  have hi : s.instrAt = 0xEE := by simp [MachineState.instrAt, h0, h1]
  rw [MachineState.tick, if_pos hpc, hi, execInstr]
  simp only []
  rw [if_neg (by decide), if_pos (by decide)]
  simp [hstk]

/-- Witness for C7. -/
theorem ret_on_empty_stack_witness :
    sRet.tick kZero rZero =
      some ({ sRet with program_counter := 0x200, stack := [] }, .ok false) :=
  ret_on_empty_stack sRet kZero rZero (by decide) (by decide) (by decide) rfl

/-- A decoded register index (< 16) is unchanged by the `& 0xF` mask. -/
theorem and15_eq (a : Nat) (h : a < 16) : a &&& 15 = a := by
  have h4 : a &&& 15 = a % 16 := by simpa using Nat.and_pow_two_sub_one_eq_mod a 4
  rw [h4, Nat.mod_eq_of_lt h]

/-- Counterexample for C3 as stated: in the Extended variant with
`V0 = 1`, `V1 = 0`, executing `8016` (shift right, x = 0, y = 1) yields
`VF = 0`, while the claim demands bit 0 of the shift source `Vx = 1`. -/
theorem shift_vf_counterexample :
    exec8xy6 .SuperChip vC 0 1 15 = 0 ∧ vC 0 &&& 1 = 1 :=
  ⟨rfl, rfl⟩

/-- C3 (corrected): `8xy6`/`8xyE` store into `Vx` the shifted value of
the variant-dependent source (`Vy` Classic, `Vx` Extended), but `VF` is
set to the outgoing bit of `Vy` in both variants (bit 0 for `8xy6`,
bit 7 for `8xyE`); when `x = F` the `VF` write overwrites the shift
result, so the stored-value part is stated for `x ≠ F`. -/
theorem shift_semantics (system : EmulationSystem) (v : Nat → Nat) (x y : Nat)
    (hx : x < 16) (hy : y < 16) (hxF : x ≠ 15) :
    (exec8xy6 system v x y x = v (if system = .SuperChip then x else y) >>> 1 ∧
      exec8xy6 system v x y 15 = v y &&& 1 ∧
      ∀ j, j ≠ x → j ≠ 15 → exec8xy6 system v x y j = v j) ∧
    (exec8xyE system v x y x = (v (if system = .SuperChip then x else y) <<< 1) % 256 ∧
      exec8xyE system v x y 15 = (v y &&& 0x80) >>> 7 ∧
      ∀ j, j ≠ x → j ≠ 15 → exec8xyE system v x y j = v j) := by
  have hx15 : x &&& 15 = x := and15_eq x hx
  have hy15 : y &&& 15 = y := and15_eq y hy
  have hsrc : (if system = EmulationSystem.SuperChip then x else y) &&& 15 =
      (if system = EmulationSystem.SuperChip then x else y) := by
    split <;> [exact hx15; exact hy15]
  refine ⟨⟨?_, ?_, fun j hjx hj15 => ?_⟩, ⟨?_, ?_, fun j hjx hj15 => ?_⟩⟩
  · simp [exec8xy6, setReg, hx15, hsrc, hxF]
  · simp [exec8xy6, setReg, hy15]
  · simp [exec8xy6, setReg, hx15, hjx, hj15]
  · simp [exec8xyE, setReg, hx15, hsrc, hxF]
  · simp [exec8xyE, setReg, hy15]
  · simp [exec8xyE, setReg, hx15, hjx, hj15]

/-- Witness for C3's amended theorem: Extended variant, x = 0, y = 1. -/
theorem shift_semantics_witness :
    exec8xy6 .SuperChip vC 0 1 0 = vC 0 >>> 1 ∧
      exec8xy6 .SuperChip vC 0 1 15 = vC 1 &&& 1 :=
  ⟨(shift_semantics .SuperChip vC 0 1 (by decide) (by decide) (by decide)).1.1,
   (shift_semantics .SuperChip vC 0 1 (by decide) (by decide) (by decide)).1.2.1⟩

/-- After the `Fx55` write loop, cell `ir + j` holds `Vj` for `j < k`. -/
theorem dumpRegs_read (v ram : Nat → Nat) (ir : Nat) (k j : Nat) (hj : j < k) :
    dumpRegs v ram ir k (ir + j) = v j := by
  induction k with
  | zero => omega
  | succ k ih =>
    rw [dumpRegs]
    by_cases hjk : j = k
    · subst hjk; simp [setMem]
    · have hlt : j < k := by omega
      have hne : ir + j ≠ ir + k := by omega
      simp [setMem, hne, ih hlt]

/-- After the `Fx65` read loop, register `j < k` holds `ram (ir + j)`. -/
theorem loadRegs_get (ram v : Nat → Nat) (ir : Nat) (k j : Nat) (hj : j < k) :
    loadRegs ram v ir k j = ram (ir + j) := by
  induction k with
  | zero => omega
  | succ k ih =>
    rw [loadRegs]
    by_cases hjk : j = k
    · subst hjk; simp [setReg]
    · have hlt : j < k := by omega
      simp [setReg, hjk, ih hlt]

/-- C8 (confirmed): `Fx55` storing `V0..Vx` at `index_register = base`
followed by `Fx65` with the index register restored to `base` reproduces
`V0..Vx` exactly, and the index register after each instruction is
`base + x + 1` in Classic and `base` in Extended. -/
theorem fx55_fx65_roundtrip (s : MachineState) (x base : Nat)
    (hx : x < 16) (hb : base + x < 4096) (hir : s.index_register = base)
    (s1 s2 : MachineState)
    (h1 : execFx55 s x = some s1)
    (h2 : execFx65 { s1 with index_register := base } x = some s2) :
    (∀ i, i ≤ x → s2.var_registers i = s.var_registers i) ∧
      s1.index_register = (if s.system = .Chip8 then base + x + 1 else base) ∧
      s2.index_register = (if s.system = .Chip8 then base + x + 1 else base) := by
  have hx15 : x &&& 15 = x := and15_eq x hx
  rw [execFx55, hx15, hir, if_pos hb] at h1
  have hs1 : s1 = { s with
      ram := dumpRegs s.var_registers s.ram base (x + 1),
      index_register := if s.system = .Chip8 then (base + x + 1) % 65536
                        else base } := by
    exact ((Option.some.injEq _ _).mp h1).symm
  subst hs1
  rw [execFx65, hx15] at h2
  simp only [if_pos hb] at h2
  have hs2 : s2 = { s with
      ram := dumpRegs s.var_registers s.ram base (x + 1),
      var_registers := loadRegs (dumpRegs s.var_registers s.ram base (x + 1))
        s.var_registers base (x + 1),
      index_register := if s.system = .Chip8 then (base + x + 1) % 65536
                        else base } := by
    exact ((Option.some.injEq _ _).mp h2).symm
  subst hs2
  have hmod : (base + x + 1) % 65536 = base + x + 1 := Nat.mod_eq_of_lt (by omega)
  refine ⟨fun i hi => ?_, ?_, ?_⟩
  · simp only
    rw [loadRegs_get _ _ _ _ _ (by omega), dumpRegs_read _ _ _ _ _ (by omega)]
  · simp only
    split <;> simp [hmod]
  · simp only
    split <;> simp [hmod]

/-- Witness for C8: Classic machine, `x = 3`, `base = 0x300`, `Vi = i`. -/
theorem fx55_fx65_roundtrip_witness :
    ((execFx55 sRegs 3).bind fun s1 =>
        (execFx65 { s1 with index_register := 0x300 } 3).map
          fun s2 => (s2.var_registers 3, s2.index_register)) = some (3, 0x304) := by
  have h := fx55_fx65_roundtrip sRegs 3 0x300 (by decide) (by decide) rfl _ _ rfl rfl
  exact rfl

/-- The loop condition `(key_diff >> i) & 1 == 1` tests bit `i`. -/
theorem bitcond_iff (d i : Nat) : ((d >>> i) &&& 1 = 1) ↔ d.testBit i = true := by
  rw [Nat.and_one_is_mod, Nat.shiftRight_eq_div_pow, Nat.testBit_to_div_mod,
    decide_eq_true_iff]

/-- If some bit in the scanned window is set, the `Fx0A` scan returns the
lowest-numbered set bit at or after the start index. -/
theorem keyScan_spec (d : Nat) : ∀ (fuel i : Nat),
    (∃ j, i ≤ j ∧ j < i + fuel ∧ d.testBit j = true) →
    ∃ r, keyScan d i fuel = some r ∧ d.testBit r = true ∧ i ≤ r ∧
      ∀ j, i ≤ j → j < r → d.testBit j = false := by
  intro fuel
  induction fuel with
  | zero =>
    rintro i ⟨j, h1, h2, -⟩
    omega
  | succ f ih =>
    rintro i ⟨j, hij, hjf, hbit⟩
    rw [keyScan]
    by_cases hc : (d >>> i) &&& 1 = 1
    · rw [if_pos hc]
      exact ⟨i, rfl, (bitcond_iff d i).mp hc, Nat.le_refl i, fun j h1 h2 => by omega⟩
    · rw [if_neg hc]
      have hbi : d.testBit i = false := by
        rcases Bool.eq_false_or_eq_true (d.testBit i) with h | h
        · exact absurd ((bitcond_iff d i).mpr h) hc
        · exact h
      have hji : j ≠ i := by
        intro hji
        rw [hji, hbi] at hbit
        exact Bool.false_ne_true hbit
      obtain ⟨r, hr, hbr, hir, hmin⟩ := ih (i + 1) ⟨j, by omega, by omega, hbit⟩
      refine ⟨r, hr, hbr, by omega, fun j h1 h2 => ?_⟩
      by_cases hj : j = i
      · rw [hj]; exact hbi
      · exact hmin j (by omega) h2

/-- For a positive 16-bit difference, the full scan finds the
lowest-numbered set bit. -/
theorem firstKeyBit_spec (d : Nat) (hpos : 0 < d) (hlt : d < 65536) :
    ∃ i, firstKeyBit d = some i ∧ d.testBit i = true ∧
      ∀ j, j < i → d.testBit j = false := by
  obtain ⟨j, hj⟩ := Nat.ne_zero_implies_bit_true (by omega : d ≠ 0)
  have hj16 : j < 16 := by
    by_contra h16
    have hge := Nat.testBit_implies_ge hj
    have : (2 : Nat) ^ 16 ≤ 2 ^ j := Nat.pow_le_pow_right (by omega) (by omega)
    omega
  obtain ⟨r, hr, hbr, -, hmin⟩ := keyScan_spec d 16 0 ⟨j, by omega, by omega, hj⟩
  exact ⟨r, hr, hbr, fun j hjr => hmin j (by omega) hjr⟩

/-- Dispatch: a fetched `Fx0A` instruction executes `execFx0A` on the
post-fetch state with the currently held key mask. -/
theorem fx0a_dispatch (s : MachineState) (keys rand : Nat → Nat) (x : Nat)
    (hx : x < 16)
    (hpc : s.program_counter + 1 < 4096)
    (h0 : s.ram s.program_counter = 0xF0 + x)
    (h1 : s.ram (s.program_counter + 1) = 0x0A) :
    s.tick keys rand =
      some (execFx0A { s with program_counter := s.program_counter + 2 } x (keys 0),
        .ok false) := by
  have hi : s.instrAt = (0xF0 + x) <<< 8 + 0x0A := by
    rw [MachineState.instrAt, h0, h1]
  rw [MachineState.tick, if_pos hpc, hi]
  interval_cases x <;> rfl

/-- C5 (confirmed): `Fx0A` compares the latched mask with the current
`held_keys()` mask.  If the current mask is numerically strictly
smaller, the lowest-numbered set bit of the numeric difference is stored
in `Vx` and the latch is reset to 0 (the program counter stays
advanced).  Otherwise the current mask is stored in the latch and the
program counter is rolled back by 2, so the same instruction re-executes
on the next tick. -/
theorem fx0a_semantics (s : MachineState) (keys rand : Nat → Nat) (x : Nat)
    (hx : x < 16)
    (hpc : s.program_counter + 1 < 4096)
    (h0 : s.ram s.program_counter = 0xF0 + x)
    (h1 : s.ram (s.program_counter + 1) = 0x0A)
    (hprev : s.previous_keystate < 65536) :
    (keys 0 < s.previous_keystate →
      ∃ i, s.tick keys rand =
          some ({ s with program_counter := s.program_counter + 2,
                         var_registers := setReg s.var_registers x i,
                         previous_keystate := 0 }, .ok false) ∧
        (s.previous_keystate - keys 0).testBit i = true ∧
        ∀ j, j < i → (s.previous_keystate - keys 0).testBit j = false) ∧
    (s.previous_keystate ≤ keys 0 →
      s.tick keys rand =
        some ({ s with previous_keystate := keys 0 }, .ok false)) := by
  have hx15 : x &&& 15 = x := and15_eq x hx
  have hd := fx0a_dispatch s keys rand x hx hpc h0 h1
  constructor
  · intro hlt
    obtain ⟨i, hscan, hbit, hmin⟩ :=
      firstKeyBit_spec (s.previous_keystate - keys 0) (by omega) (by omega)
    refine ⟨i, ?_, hbit, hmin⟩
    rw [hd, execFx0A]
    simp only [if_pos hlt, hscan, hx15]
  · intro hge
    have hnlt : ¬ keys 0 < s.previous_keystate := by omega
    rw [hd, execFx0A]
    simp only [if_neg hnlt]
    have hmod : (s.program_counter + 2 + 65534) % 65536 = s.program_counter := by omega
    simp [hmod]

/-- Witness for C5: `x = 3`, latched mask 1, no key held now. -/
theorem fx0a_semantics_witness :
    sKey.tick kZero rZero =
      some ({ sKey with program_counter := 0x202,
                        var_registers := setReg sKey.var_registers 3 0,
                        previous_keystate := 0 }, .ok false) := by
  obtain ⟨i, htick, hbit, hmin⟩ :=
    (fx0a_semantics sKey kZero rZero 3 (by decide) (by decide) (by decide) (by decide)
      (by decide)).1 (by decide)
  have hi0 : i = 0 := by
    by_contra hne
    have h2 : (2 : Nat) ^ 1 ≤ 2 ^ i := Nat.pow_le_pow_right (by omega) (by omega)
    have h3 := Nat.testBit_implies_ge hbit
    have h4 : sKey.previous_keystate - kZero 0 = 1 := rfl
    rw [h4] at h3
    simp at h2
    omega
  rw [hi0] at htick
  exact htick

/-- Flipping the same pixel in two parallel runs preserves their XOR. -/
theorem xor_xor_cancel (a b m : Bool) : xor (xor a m) (xor b m) = xor a b := by
  cases a <;> cases b <;> cases m <;> rfl

/-- XOR cancellation used to conclude the double-draw round trip. -/
theorem xor_cancel_left (a b c : Bool) (h : xor a b = xor c a) : b = c := by
  cases a <;> cases b <;> cases c <;> simp_all

/-- A pixel flip is a pointwise XOR with a display-independent mask. -/
theorem flipPx_eq (d : Nat → Nat → Bool) (a b p q : Nat) :
    flipPx d a b p q = xor (d p q) (decide (p = a ∧ q = b)) := by
  rw [flipPx]
  by_cases h : p = a ∧ q = b
  · rw [if_pos h, h.1, h.2]
    simp
  · rw [if_neg h]
    simp [h]

/-- Two runs of the high-res column loop from different displays change
them by the same pointwise XOR mask. -/
theorem colsHigh_xor (s16 : Bool) (row xp yr : Nat) :
    ∀ (fuel j : Nat) (d1 d2 : Nat → Nat → Bool) (c1 c2 : Bool) (p q : Nat),
      xor ((colsHigh s16 row xp yr fuel j d1 c1).1 p q)
          ((colsHigh s16 row xp yr fuel j d2 c2).1 p q)
        = xor (d1 p q) (d2 p q) := by
  intro fuel
  induction fuel with
  | zero => intro j d1 d2 c1 c2 p q; rfl
  | succ f ih =>
    intro j d1 d2 c1 c2 p q
    simp only [colsHigh]
    by_cases hb : 128 ≤ xp + j
    · rw [if_pos hb, if_pos hb]
    · rw [if_neg hb, if_neg hb]
      by_cases hpix : (if s16 = true then (row >>> (15 - j)) &&& 1 = 1
                       else (row >>> (7 - j)) &&& 1 = 1)
      · rw [if_pos hpix, if_pos hpix]
        rw [ih]
        rw [flipPx_eq, flipPx_eq, xor_xor_cancel]
      · rw [if_neg hpix, if_neg hpix]
        exact ih _ _ _ _ _ _ _

/-- Four-fold flip cancellation for the 2x2 low-res blocks. -/
theorem xor4_cancel (a b m1 m2 m3 m4 : Bool) :
    xor (xor (xor (xor (xor a m1) m2) m3) m4)
        (xor (xor (xor (xor b m1) m2) m3) m4) = xor a b := by
  cases a <;> cases b <;> cases m1 <;> cases m2 <;> cases m3 <;> cases m4 <;> rfl

/-- Two runs of the high-res row loop from different displays succeed
together and change them by the same pointwise XOR mask. -/
theorem rowsHigh_xor (ram : Nat → Nat) (ir : Nat) (s16 : Bool) (n xp yp : Nat) :
    ∀ (fuel i : Nat) (d1 d2 : Nat → Nat → Bool) (vf1 vf2 : Nat)
      (r1 : (Nat → Nat → Bool) × Nat),
      rowsHigh ram ir s16 n xp yp fuel i d1 vf1 = some r1 →
      ∃ r2, rowsHigh ram ir s16 n xp yp fuel i d2 vf2 = some r2 ∧
        ∀ p q, xor (r1.1 p q) (r2.1 p q) = xor (d1 p q) (d2 p q) := by
  intro fuel
  induction fuel with
  | zero =>
    intro i d1 d2 vf1 vf2 r1 h1
    rw [rowsHigh] at h1
    exact ⟨(d2, vf2), rfl, fun p q => by rw [← (Option.some.injEq _ _).mp h1]⟩
  | succ f ih =>
    intro i d1 d2 vf1 vf2 r1 h1
    rw [rowsHigh] at h1 ⊢
    by_cases hclip : 64 ≤ yp + i
    · rw [if_pos hclip] at h1 ⊢
      refine ⟨(d2, vf2 + (n - i)), rfl, fun p q => ?_⟩
      rw [← (Option.some.injEq _ _).mp h1]
    · rw [if_neg hclip] at h1 ⊢
      by_cases hoob : 4096 ≤ ir + (if s16 = true then i * 2 + 1 else i)
      · rw [if_pos hoob] at h1
        exact absurd h1 (by simp)
      · rw [if_neg hoob] at h1 ⊢
        simp only [] at h1 ⊢
        obtain ⟨r2, hr2, hx⟩ := ih (i + 1) _ _ _ _ r1 h1
        refine ⟨r2, hr2, fun p q => ?_⟩
        rw [hx, colsHigh_xor]

/-- Two runs of the low-res column loop from different displays change
them by the same pointwise XOR mask. -/
theorem colsLow_xor (row xp yi : Nat) :
    ∀ (fuel j : Nat) (d1 d2 : Nat → Nat → Bool) (vf1 vf2 : Nat) (p q : Nat),
      xor ((colsLow row xp yi fuel j d1 vf1).1 p q)
          ((colsLow row xp yi fuel j d2 vf2).1 p q)
        = xor (d1 p q) (d2 p q) := by
  intro fuel
  induction fuel with
  | zero => intro j d1 d2 vf1 vf2 p q; rfl
  | succ f ih =>
    intro j d1 d2 vf1 vf2 p q
    simp only [colsLow]
    by_cases hb : 128 ≤ 2 * (xp + j)
    · rw [if_pos hb, if_pos hb]
    · rw [if_neg hb, if_neg hb]
      by_cases hpix : (row >>> (7 - j)) &&& 1 = 1
      · rw [if_pos hpix, if_pos hpix]
        rw [ih]
        simp only [flipPx_eq]
        exact xor4_cancel _ _ _ _ _ _
      · rw [if_neg hpix, if_neg hpix]
        exact ih _ _ _ _ _ _ _

/-- Two runs of the low-res row loop from different displays succeed
together and change them by the same pointwise XOR mask. -/
theorem rowsLow_xor (ram : Nat → Nat) (ir xp yp : Nat) :
    ∀ (fuel i : Nat) (d1 d2 : Nat → Nat → Bool) (vf1 vf2 : Nat)
      (r1 : (Nat → Nat → Bool) × Nat),
      rowsLow ram ir xp yp fuel i d1 vf1 = some r1 →
      ∃ r2, rowsLow ram ir xp yp fuel i d2 vf2 = some r2 ∧
        ∀ p q, xor (r1.1 p q) (r2.1 p q) = xor (d1 p q) (d2 p q) := by
  intro fuel
  induction fuel with
  | zero =>
    intro i d1 d2 vf1 vf2 r1 h1
    rw [rowsLow] at h1
    exact ⟨(d2, vf2), rfl, fun p q => by rw [← (Option.some.injEq _ _).mp h1]⟩
  | succ f ih =>
    intro i d1 d2 vf1 vf2 r1 h1
    rw [rowsLow] at h1 ⊢
    by_cases hclip : 64 ≤ 2 * (yp + i)
    · rw [if_pos hclip] at h1 ⊢
      refine ⟨(d2, vf2), rfl, fun p q => ?_⟩
      rw [← (Option.some.injEq _ _).mp h1]
    · rw [if_neg hclip] at h1 ⊢
      by_cases hoob : 4096 ≤ ir + i
      · rw [if_pos hoob] at h1
        exact absurd h1 (by simp)
      · rw [if_neg hoob] at h1 ⊢
        simp only [] at h1 ⊢
        obtain ⟨r2, hr2, hx⟩ := ih (i + 1) _ _ _ _ r1 h1
        refine ⟨r2, hr2, fun p q => ?_⟩
        rw [hx, colsLow_xor]

/-- The low-res column loop starting at `j` only touches buffer columns
`≥ 2 * (xp + j)`. -/
theorem colsLow_cols_lower (row xp yi : Nat) :
    ∀ (fuel j : Nat) (d : Nat → Nat → Bool) (vf : Nat) (p q : Nat),
      p < 2 * (xp + j) → (colsLow row xp yi fuel j d vf).1 p q = d p q := by
  intro fuel
  induction fuel with
  | zero => intro j d vf p q _; rfl
  | succ f ih =>
    intro j d vf p q hp
    simp only [colsLow]
    by_cases hb : 128 ≤ 2 * (xp + j)
    · rw [if_pos hb]
    · rw [if_neg hb]
      by_cases hpix : (row >>> (7 - j)) &&& 1 = 1
      · rw [if_pos hpix]
        rw [ih _ _ _ _ _ (by omega)]
        simp only [flipPx_eq]
        have e1 : ¬(p = 2 * (xp + j) ∧ q = 2 * yi) := by omega
        have e2 : ¬(p = 2 * (xp + j) ∧ q = 2 * yi + 1) := by omega
        have e3 : ¬(p = 2 * (xp + j) + 1 ∧ q = 2 * yi) := by omega
        have e4 : ¬(p = 2 * (xp + j) + 1 ∧ q = 2 * yi + 1) := by omega
        simp [e1, e2, e3, e4]
      · rw [if_neg hpix]
        exact ih _ _ _ _ _ (by omega)

/-- The low-res column loop only touches the two buffer rows of its 2x2
blocks. -/
theorem colsLow_rows_local (row xp yi : Nat) :
    ∀ (fuel j : Nat) (d : Nat → Nat → Bool) (vf : Nat) (p q : Nat),
      q ≠ 2 * yi → q ≠ 2 * yi + 1 → (colsLow row xp yi fuel j d vf).1 p q = d p q := by
  intro fuel
  induction fuel with
  | zero => intro j d vf p q _ _; rfl
  | succ f ih =>
    intro j d vf p q hq1 hq2
    simp only [colsLow]
    by_cases hb : 128 ≤ 2 * (xp + j)
    · rw [if_pos hb]
    · rw [if_neg hb]
      by_cases hpix : (row >>> (7 - j)) &&& 1 = 1
      · rw [if_pos hpix, ih _ _ _ _ _ hq1 hq2]
        simp only [flipPx_eq]
        have e1 : ¬(p = 2 * (xp + j) ∧ q = 2 * yi) := by omega
        have e2 : ¬(p = 2 * (xp + j) ∧ q = 2 * yi + 1) := by omega
        have e3 : ¬(p = 2 * (xp + j) + 1 ∧ q = 2 * yi) := by omega
        have e4 : ¬(p = 2 * (xp + j) + 1 ∧ q = 2 * yi + 1) := by omega
        simp [e1, e2, e3, e4]
      · rw [if_neg hpix]
        exact ih _ _ _ _ _ hq1 hq2

/-- The low-res row loop starting at row `i` only touches buffer rows
`≥ 2 * (yp + i)`. -/
theorem rowsLow_rows_lower (ram : Nat → Nat) (ir xp yp : Nat) :
    ∀ (fuel i : Nat) (d : Nat → Nat → Bool) (vf : Nat)
      (r : (Nat → Nat → Bool) × Nat),
      rowsLow ram ir xp yp fuel i d vf = some r →
      ∀ p q, q < 2 * (yp + i) → r.1 p q = d p q := by
  intro fuel
  induction fuel with
  | zero =>
    intro i d vf r h p q _
    rw [rowsLow] at h
    rw [← (Option.some.injEq _ _).mp h]
  | succ f ih =>
    intro i d vf r h p q hq
    rw [rowsLow] at h
    by_cases hclip : 64 ≤ 2 * (yp + i)
    · rw [if_pos hclip] at h
      rw [← (Option.some.injEq _ _).mp h]
    · rw [if_neg hclip] at h
      by_cases hoob : 4096 ≤ ir + i
      · rw [if_pos hoob] at h
        exact absurd h (by simp)
      · rw [if_neg hoob] at h
        simp only [] at h
        rw [ih (i + 1) _ _ r h p q (by omega)]
        exact colsLow_rows_local _ _ _ _ _ _ _ _ _ (by omega) (by omega)

/-- Drawing a row flips the top-left subpixel of every visible set
sprite pixel exactly once. -/
theorem colsLow_sets (row xp yi : Nat) (j0 : Nat)
    (hvis : 2 * (xp + j0) < 128) (hbit : (row >>> (7 - j0)) &&& 1 = 1) :
    ∀ (fuel j : Nat) (d : Nat → Nat → Bool) (vf : Nat),
      j ≤ j0 → j0 < j + fuel →
      (colsLow row xp yi fuel j d vf).1 (2 * (xp + j0)) (2 * yi) =
        !(d (2 * (xp + j0)) (2 * yi)) := by
  intro fuel
  induction fuel with
  | zero => intro j d vf h1 h2; omega
  | succ f ih =>
    intro j d vf hj hjf
    simp only [colsLow]
    by_cases hb : 128 ≤ 2 * (xp + j)
    · exact absurd hvis (by omega)
    · rw [if_neg hb]
      by_cases hjj : j = j0
      · subst hjj
        rw [if_pos hbit]
        rw [colsLow_cols_lower _ _ _ _ _ _ _ _ _ (by omega)]
        have g1 : ¬(2 * (xp + j) = 2 * (xp + j) + 1) := by omega
        have g2 : ¬(2 * yi = 2 * yi + 1) := by omega
        simp [flipPx_eq, g1, g2]
      · by_cases hpix : (row >>> (7 - j)) &&& 1 = 1
        · rw [if_pos hpix]
          rw [ih (j + 1) _ _ (by omega) (by omega)]
          have g1 : ¬(2 * (xp + j0) = 2 * (xp + j)) := by omega
          have g2 : ¬(2 * (xp + j0) = 2 * (xp + j) + 1) := by omega
          simp [flipPx_eq, g1, g2]
        · rw [if_neg hpix]
          exact ih (j + 1) _ _ (by omega) (by omega)

/-- A low-res draw flips the top-left subpixel of every visible set
sprite pixel exactly once. -/
theorem rowsLow_sets (ram : Nat → Nat) (ir xp yp : Nat) (i0 j0 : Nat)
    (hrow : 2 * (yp + i0) < 64) (hcol : 2 * (xp + j0) < 128) (hj0 : j0 < 8)
    (hbit : (ram (ir + i0) >>> (7 - j0)) &&& 1 = 1) :
    ∀ (fuel i : Nat) (d : Nat → Nat → Bool) (vf : Nat)
      (r : (Nat → Nat → Bool) × Nat),
      i ≤ i0 → i0 < i + fuel →
      rowsLow ram ir xp yp fuel i d vf = some r →
      r.1 (2 * (xp + j0)) (2 * (yp + i0)) = !(d (2 * (xp + j0)) (2 * (yp + i0))) := by
  intro fuel
  induction fuel with
  | zero => intro i d vf r h1 h2; omega
  | succ f ih =>
    intro i d vf r hi hif h
    rw [rowsLow] at h
    by_cases hclip : 64 ≤ 2 * (yp + i)
    · exact absurd hrow (by omega)
    · rw [if_neg hclip] at h
      by_cases hoob : 4096 ≤ ir + i
      · rw [if_pos hoob] at h
        exact absurd h (by simp)
      · rw [if_neg hoob] at h
        simp only [] at h
        by_cases hii : i = i0
        · subst hii
          rw [rowsLow_rows_lower ram ir xp yp f (i + 1) _ _ r h _ _ (by omega)]
          exact colsLow_sets (ram (ir + i)) xp (yp + i) j0 hcol hbit 8 0 d vf (by omega) (by omega)
        · rw [ih (i + 1) _ _ r (by omega) (by omega) h]
          rw [colsLow_rows_local _ _ _ _ _ _ _ _ _ (by omega) (by omega)]

/-- The low-res column loop never resets a collision flag of 1. -/
theorem colsLow_vf_one (row xp yi : Nat) :
    ∀ (fuel j : Nat) (d : Nat → Nat → Bool),
      (colsLow row xp yi fuel j d 1).2 = 1 := by
  intro fuel
  induction fuel with
  | zero => intro j d; rfl
  | succ f ih =>
    intro j d
    simp only [colsLow]
    by_cases hb : 128 ≤ 2 * (xp + j)
    · rw [if_pos hb]
    · rw [if_neg hb]
      by_cases hpix : (row >>> (7 - j)) &&& 1 = 1
      · rw [if_pos hpix]
        by_cases hcol : d (2 * (xp + j)) (2 * yi)
        · rw [if_pos hcol]; exact ih _ _
        · rw [if_neg hcol]; exact ih _ _
      · rw [if_neg hpix]; exact ih _ _

/-- The low-res row loop never resets a collision flag of 1. -/
theorem rowsLow_vf_one (ram : Nat → Nat) (ir xp yp : Nat) :
    ∀ (fuel i : Nat) (d : Nat → Nat → Bool) (r : (Nat → Nat → Bool) × Nat),
      rowsLow ram ir xp yp fuel i d 1 = some r → r.2 = 1 := by
  intro fuel
  induction fuel with
  | zero =>
    intro i d r h
    rw [rowsLow] at h
    rw [← (Option.some.injEq _ _).mp h]
  | succ f ih =>
    intro i d r h
    rw [rowsLow] at h
    by_cases hclip : 64 ≤ 2 * (yp + i)
    · rw [if_pos hclip] at h
      rw [← (Option.some.injEq _ _).mp h]
    · rw [if_neg hclip] at h
      by_cases hoob : 4096 ≤ ir + i
      · rw [if_pos hoob] at h
        exact absurd h (by simp)
      · rw [if_neg hoob] at h
        simp only [] at h
        rw [colsLow_vf_one] at h
        exact ih (i + 1) _ r h

/-- If some visible set pixel of the row has its top-left subpixel lit,
the low-res column loop reports a collision (`VF = 1`). -/
theorem colsLow_vf_hit (row xp yi : Nat) (j0 : Nat)
    (hvis : 2 * (xp + j0) < 128) (hbit0 : (row >>> (7 - j0)) &&& 1 = 1) :
    ∀ (fuel j : Nat) (d : Nat → Nat → Bool) (vf : Nat),
      j ≤ j0 → j0 < j + fuel →
      (∀ j', j ≤ j' → j' < j + fuel → 2 * (xp + j') < 128 →
        (row >>> (7 - j')) &&& 1 = 1 → d (2 * (xp + j')) (2 * yi) = true) →
      (colsLow row xp yi fuel j d vf).2 = 1 := by
  intro fuel
  induction fuel with
  | zero => intro j d vf h1 h2 _; omega
  | succ f ih =>
    intro j d vf hj hjf H
    simp only [colsLow]
    by_cases hb : 128 ≤ 2 * (xp + j)
    · exact absurd hvis (by omega)
    · rw [if_neg hb]
      by_cases hpix : (row >>> (7 - j)) &&& 1 = 1
      · rw [if_pos hpix]
        have hd : d (2 * (xp + j)) (2 * yi) = true :=
          H j (Nat.le_refl j) (by omega) (by omega) hpix
        rw [if_pos hd]
        exact colsLow_vf_one _ _ _ _ _ _
      · rw [if_neg hpix]
        have hjj : j ≠ j0 := fun he => hpix (he ▸ hbit0)
        exact ih (j + 1) d vf (by omega) (by omega)
          (fun j' h1 h2 h3 h4 => H j' (by omega) (by omega) h3 h4)

/-- If some visible set pixel of the sprite has its top-left subpixel
lit before the draw (and every visible set pixel does), the low-res draw
sets `VF = 1`. -/
theorem rowsLow_vf_hit (ram : Nat → Nat) (ir xp yp : Nat) (i0 j0 : Nat)
    (hrow : 2 * (yp + i0) < 64) (hcol : 2 * (xp + j0) < 128) (hj0 : j0 < 8)
    (hbit : (ram (ir + i0) >>> (7 - j0)) &&& 1 = 1) :
    ∀ (fuel i : Nat) (d : Nat → Nat → Bool) (vf : Nat)
      (r : (Nat → Nat → Bool) × Nat),
      i ≤ i0 → i0 < i + fuel →
      (∀ i' j', i ≤ i' → i' < i + fuel → 2 * (yp + i') < 64 → j' < 8 →
        2 * (xp + j') < 128 → (ram (ir + i') >>> (7 - j')) &&& 1 = 1 →
        d (2 * (xp + j')) (2 * (yp + i')) = true) →
      rowsLow ram ir xp yp fuel i d vf = some r → r.2 = 1 := by
  intro fuel
  induction fuel with
  | zero => intro i d vf r h1 h2 _ _; omega
  | succ f ih =>
    intro i d vf r hi hif H h
    rw [rowsLow] at h
    by_cases hclip : 64 ≤ 2 * (yp + i)
    · exact absurd hrow (by omega)
    · rw [if_neg hclip] at h
      by_cases hoob : 4096 ≤ ir + i
      · rw [if_pos hoob] at h
        exact absurd h (by simp)
      · rw [if_neg hoob] at h
        simp only [] at h
        by_cases hii : i = i0
        · subst hii
          have hp2 : (colsLow (ram (ir + i)) xp (yp + i) 8 0 d vf).2 = 1 :=
            colsLow_vf_hit (ram (ir + i)) xp (yp + i) j0 hcol hbit 8 0 d vf
              (by omega) (by omega)
              (fun j' h1 h2 h3 h4 =>
                H i j' (Nat.le_refl i) (by omega) (by omega) (by omega) h3 h4)
          rw [hp2] at h
          exact rowsLow_vf_one ram ir xp yp f (i + 1) _ r h
        · refine ih (i + 1) _ _ r (by omega) (by omega) (fun i' j' h1 h2 h3 h4 h5 h6 => ?_) h
          rw [colsLow_rows_local _ _ _ _ _ _ _ _ _ (by omega) (by omega)]
          exact H i' j' (by omega) (by omega) h3 h4 h5 h6

/-- C4 (corrected): drawing a sprite with `Dxyn` twice at the same
position (position/sprite registers not `VF`) restores every pixel of
the display buffer to its pre-draw value (XOR round trip, both display
modes, any starting buffer).  In low-res mode, starting from a blank
display, the second draw sets `VF` to exactly 1 as soon as the sprite
has at least one visible set pixel.  (In high-res mode `VF` instead
accumulates a per-row collision count which exceeds 1 for multi-row
sprites — see the counterexample.) -/
theorem dxyn_double_draw (s s1 s2 : MachineState) (x y n : Nat)
    (hx : x < 16) (hy : y < 16) (hxF : x ≠ 15) (hyF : y ≠ 15)
    (h1 : execDxyn s x y n = some s1) (h2 : execDxyn s1 x y n = some s2) :
    (∀ p q, s2.display_buffer p q = s.display_buffer p q) ∧
    (s.high_res = false →
      (∀ p q, s.display_buffer p q = false) →
      ∀ i0 j0, i0 < n → 2 * (s.var_registers y % 32 + i0) < 64 →
        j0 < 8 → 2 * (s.var_registers x % 64 + j0) < 128 →
        (s.ram (s.index_register + i0) >>> (7 - j0)) &&& 1 = 1 →
        s2.var_registers 15 = 1) := by
  have hx15 : x &&& 15 = x := and15_eq x hx
  have hy15 : y &&& 15 = y := and15_eq y hy
  rw [execDxyn] at h1 h2
  by_cases hres : s.high_res = true
  · rw [if_pos hres] at h1
    simp only [Option.map_eq_some'] at h1
    obtain ⟨p1, hp1, hs1⟩ := h1
    subst hs1
    simp only [hres, if_pos] at h2
    -- the first draw leaves every field read by the second draw unchanged
    simp only [setReg, hxF, hyF, if_neg, if_false] at h2
    simp only [Option.map_eq_some'] at h2
    obtain ⟨p2, hp2, hs2⟩ := h2
    subst hs2
    obtain ⟨r2, hr2, hxor⟩ := rowsHigh_xor s.ram s.index_register (decide (n = 0))
      (if n = 0 then 16 else n) (s.var_registers x % 128) (s.var_registers y % 64)
      (if n = 0 then 16 else n) 0 s.display_buffer p1.1 0 0 p1 hp1
    rw [hr2] at hp2
    have hr2p : r2 = p2 := (Option.some.injEq _ _).mp hp2
    subst hr2p
    constructor
    · intro p q
      exact xor_cancel_left _ _ _ (hxor p q)
    · intro hlow
      rw [hlow] at hres
      exact absurd hres (by simp)
  · rw [if_neg hres] at h1
    rw [hx15, hy15] at h1
    simp only [Option.map_eq_some'] at h1
    obtain ⟨p1, hp1, hs1⟩ := h1
    subst hs1
    simp only [if_neg hres] at h2
    rw [hx15, hy15] at h2
    simp only [setReg, hxF, hyF, if_neg, if_false] at h2
    simp only [Option.map_eq_some'] at h2
    obtain ⟨p2, hp2, hs2⟩ := h2
    subst hs2
    obtain ⟨r2, hr2, hxor⟩ := rowsLow_xor s.ram s.index_register
      (s.var_registers x % 64) (s.var_registers y % 32) n 0
      s.display_buffer p1.1 0 0 p1 hp1
    rw [hr2] at hp2
    have hr2p : r2 = p2 := (Option.some.injEq _ _).mp hp2
    rw [hr2p] at hxor hr2
    constructor
    · intro p q
      exact xor_cancel_left _ _ _ (hxor p q)
    · intro hlow hblank i0 j0 hi0 hrow0 hj0 hcol0 hbit0
      show setReg (setReg s.var_registers 15 p1.2) 15 p2.2 15 = 1
      have hvf : p2.2 = 1 := by
        refine rowsLow_vf_hit s.ram s.index_register
          (s.var_registers x % 64) (s.var_registers y % 32) i0 j0
          hrow0 hcol0 hj0 hbit0 n 0 p1.1 0 p2 (by omega) (by omega)
          (fun i' j' h1' h2' h3' h4' h5' h6' => ?_) hr2
        rw [rowsLow_sets s.ram s.index_register
          (s.var_registers x % 64) (s.var_registers y % 32) i' j'
          h3' h5' h4' h6' n 0 s.display_buffer 0 p1 (by omega) (by omega) hp1]
        rw [hblank]
        rfl
      rw [hvf]
      simp [setReg]
  

/-- Counterexample for C4 as stated: in high-res mode, drawing the
2-row sprite `80 80` twice at (0,0) leaves `VF = 2` after the second
draw, not exactly 1. -/
theorem dxyn_vf_counterexample :
    ((execDxyn sDraw 0 1 2).bind fun s1 => execDxyn s1 0 1 2).map
        (fun s2 => s2.var_registers 15) = some 2 ∧ (2 : Nat) ≠ 1 :=
  ⟨rfl, by decide⟩

/-- Witness for C4's amended theorem: low-res, one-pixel sprite from a
blank display — buffer restored and `VF = 1`. -/
theorem dxyn_double_draw_witness :
    ((execDxyn sLowDraw 0 1 1).bind fun s1 => execDxyn s1 0 1 1).map
        (fun s2 => (s2.display_buffer 0 0, s2.var_registers 15)) =
      some (false, 1) := by
  have h := dxyn_double_draw sLowDraw _ _ 0 1 1 (by decide) (by decide)
    (by decide) (by decide) rfl rfl
  exact rfl
